import Mathlib

/-!
Shallow embedding of the ECS core of the `real-fake-ad-game` repository.

The TypeScript sources embedded here:
* `src/lib/ecs/World.ts` (entity registry, component store, query cache),
* `src/lib/ecs/components/CoreComponents.ts`, `GameComponents.ts` (data model),
* `src/lib/ecs/systems/MovementSystem.ts`, `CleanupSystem.ts`,
* `src/lib/ecs/systems/CollisionSystem.ts` (second revision in the file, the
  one with the multiplier-cloning phase),
* the `PowerupSystem` and `SpawnSystem` sources.

Modelling conventions:
* JS numbers are rationals (`ℚ`); the arithmetic used by the embedded code is
  addition/subtraction/multiplication and order comparisons, which are exact.
* A JS `Map` is an insertion-ordered association list: `set` overwrites in
  place, `delete` removes the entry, iteration follows insertion order.
* An `Entity` object is its numeric `id` (`Entity.equals` is id equality).
* In-place mutation of a component's field through a reference obtained from
  `getComponent` is modelled by rewriting the component value in the store
  (`updateComponent`), which - matching the JS aliasing semantics - does NOT
  invalidate the query cache, unlike `addComponent` / `removeComponent`.
* Code paths that dereference `undefined` (a missing object) are modelled in
  the `Except` monad as a thrown `TypeError`.
-/

namespace RFAG

/-- JS-`Map`-like insertion-ordered association list lookup (first match). -/
def alistGet {α β : Type} [DecidableEq α] (l : List (α × β)) (k : α) : Option β :=
  match l with
  | [] => none
  | (k', v) :: rest => if k' = k then some v else alistGet rest k

/-- JS `Map.set`: overwrite in place if the key is present, else append. -/
def alistSet {α β : Type} [DecidableEq α] (l : List (α × β)) (k : α) (v : β) :
    List (α × β) :=
  match l with
  | [] => [(k, v)]
  | (k', v') :: rest =>
    if k' = k then (k, v) :: rest else (k', v') :: alistSet rest k v

/-- JS `Map.delete`: remove the entry with the given key (no-op if absent). -/
def alistDelete {α β : Type} [DecidableEq α] (l : List (α × β)) (k : α) :
    List (α × β) :=
  match l with
  | [] => []
  | (k', v') :: rest =>
    if k' = k then rest else (k', v') :: alistDelete rest k

/-- JS `Map.has`. -/
def alistHas {α β : Type} [DecidableEq α] (l : List (α × β)) (k : α) : Bool :=
  match l with
  | [] => false
  | (k', _) :: rest => if k' = k then true else alistHas rest k

/-- `PositionComponent` (CoreComponents.ts): x, y, rotation. -/
structure PositionData where
  x : ℚ
  y : ℚ
  rotation : ℚ
deriving DecidableEq, Repr

/-- `SizeComponent` (CoreComponents.ts): width, height. -/
structure SizeData where
  width : ℚ
  height : ℚ
deriving DecidableEq, Repr

/-- `VelocityComponent` (CoreComponents.ts): speedX, speedY. -/
structure VelocityData where
  speedX : ℚ
  speedY : ℚ
deriving DecidableEq, Repr

/-- `HealthComponent` (CoreComponents.ts): currentHealth, maxHealth. -/
structure HealthData where
  currentHealth : ℚ
  maxHealth : ℚ
deriving DecidableEq, Repr

/-- `CollisionComponent` (CoreComponents.ts): collidable, damage, collisionGroup. -/
structure CollisionData where
  collidable : Bool
  damage : ℚ
  collisionGroup : String
deriving DecidableEq, Repr

/-- `PlayerComponent` (GameComponents.ts). The class declares no `score`
field; `CollisionSystem` nevertheless writes `playerComp.score += pointValue`,
which in JS reads the absent property as `undefined` and stores `NaN`
(`undefined + n`), and `NaN + n` stays `NaN`. The dynamic property is modelled
as `score : Option ℚ`, `none` standing for absent-or-`NaN` (no numeric value);
the `+=` is `Option.map (· + pointValue)`, which is `none`-absorbing exactly
like the JS arithmetic. A fresh `PlayerComponent` has `score = none`. -/
structure PlayerData where
  offsetX : ℚ
  speed : ℚ
  canShoot : Bool
  shootCooldown : ℚ
  currentShootCooldown : ℚ
  isMovingLeft : Bool
  isMovingRight : Bool
  isShooting : Bool
  playerIndex : ℚ
  score : Option ℚ
deriving DecidableEq, Repr

/-- `EnemyComponent` (GameComponents.ts): enemyType, pointValue. -/
structure EnemyData where
  enemyType : String
  pointValue : ℚ
deriving DecidableEq, Repr

/-- `PowerupComponent` (GameComponents.ts): powerupType, value. -/
structure PowerupData where
  powerupType : String
  value : ℚ
deriving DecidableEq, Repr

/-- `BulletComponent` (GameComponents.ts): damage, hit. -/
structure BulletData where
  damage : ℚ
  hit : Bool
deriving DecidableEq, Repr

/-- `MultiplierComponent` (GameComponents.ts): the clone count `value`.
It is only ever used as the bound of a `for (let i = 0; i < value; i++)`
loop and as a factor in an unused product, so it is modelled as `ℕ`. -/
structure MultiplierData where
  value : ℕ
deriving DecidableEq, Repr

/-- `CooldownModifierComponent` (GameComponents.ts). -/
structure CooldownData where
  bulletCooldownMultiplier : ℚ
  duration : ℚ
  timeRemaining : ℚ
deriving DecidableEq, Repr

/-- `GameStateComponent` (GameComponents.ts). -/
structure GameStateData where
  isPaused : Bool
  isGameOver : Bool
  score : ℚ
  activePlayerIndex : ℚ
  playerCount : ℚ
deriving DecidableEq, Repr

/-- A component instance: a data record tagged by its constructor, mirroring
the component classes; the discriminating `type` string is `Component.ctype`. -/
inductive Component where
  | position (p : PositionData)
  | size (s : SizeData)
  | velocity (v : VelocityData)
  | render (color shape : String)
  | health (h : HealthData)
  | collision (c : CollisionData)
  | player (p : PlayerData)
  | enemy (e : EnemyData)
  | powerup (p : PowerupData)
  | bullet (b : BulletData)
  | multiplier (m : MultiplierData)
  | cooldownModifier (c : CooldownData)
  | gameState (g : GameStateData)
  | tag (t : String)
deriving DecidableEq, Repr

/-- The readonly `type` discriminator of each component class. -/
def Component.ctype : Component → String
  | .position _ => "Position"
  | .size _ => "Size"
  | .velocity _ => "Velocity"
  | .render _ _ => "Render"
  | .health _ => "Health"
  | .collision _ => "Collision"
  | .player _ => "Player"
  | .enemy _ => "Enemy"
  | .powerup _ => "Powerup"
  | .bullet _ => "Bullet"
  | .multiplier _ => "Multiplier"
  | .cooldownModifier _ => "CooldownModifier"
  | .gameState _ => "GameState"
  | .tag _ => "Tag"

/-- The component map of one entity: a JS `Map<string, Component>`. -/
abbrev ComponentMap := List (String × Component)

/-- `World` (World.ts): entities, components, query cache, and - for
`getSystems` - the class names of the registered systems in registration
order. `nextId` is the static `Entity.nextId` counter. -/
structure World where
  entities : List ℕ
  components : List (ℕ × ComponentMap)
  systems : List String
  entityComponentCache : List (String × List ℕ)
  cacheValid : Bool
  nextId : ℕ
deriving DecidableEq, Repr

/-- A fresh world (with a given list of registered system class names). -/
def World.init (systems : List String) : World :=
  { entities := [], components := [], systems := systems,
    entityComponentCache := [], cacheValid := false, nextId := 0 }

/-- `World.createEntity`: fresh id, empty component map, cache invalidated. -/
def createEntity (w : World) : ℕ × World :=
  let id := w.nextId
  (id, { w with
    entities := w.entities ++ [id],
    components := alistSet w.components id [],
    cacheValid := false,
    nextId := id + 1 })

/-- `World.removeEntity`: splice out the first entity with this id, delete its
component map and invalidate the cache; no-op when the id is not present. -/
def removeEntity (e : ℕ) (w : World) : World :=
  if e ∈ w.entities then
    { w with
      entities := w.entities.erase e,
      components := alistDelete w.components e,
      cacheValid := false }
  else w

/-- `World.addComponent`: insert or overwrite by `component.type`, invalidate
the cache; silent no-op when the entity has no component map. -/
def addComponent (e : ℕ) (c : Component) (w : World) : World :=
  match alistGet w.components e with
  | some m =>
    { w with
      components := alistSet w.components e (alistSet m c.ctype c),
      cacheValid := false }
  | none => w

/-- `World.getComponent`: absent entity or absent component gives `none`. -/
def getComponent (e : ℕ) (t : String) (w : World) : Option Component :=
  match alistGet w.components e with
  | some m => alistGet m t
  | none => none

/-- `World.removeComponent`: delete by type and invalidate the cache (the
cache is invalidated whenever the entity exists, present component or not);
no-op when the entity has no component map. -/
def removeComponent (e : ℕ) (t : String) (w : World) : World :=
  match alistGet w.components e with
  | some m =>
    { w with
      components := alistSet w.components e (alistDelete m t),
      cacheValid := false }
  | none => w

/-- In-place mutation of an existing component through an aliased reference
(for example `position.x += ...`). This rewrites the stored value and, unlike
`addComponent`, leaves the query cache untouched: JS field assignment through
a reference never goes through `World.addComponent`. -/
def updateComponent (e : ℕ) (t : String) (c : Component) (w : World) : World :=
  match alistGet w.components e with
  | some m =>
    if alistHas m t then
      { w with components := alistSet w.components e (alistSet m t c) }
    else w
  | none => w

/-- `World.getSystems`: the registered system class names equal to `name`. -/
def getSystems (name : String) (w : World) : List String :=
  w.systems.filter (fun s => s = name)

/-- Lexicographic "less than" on code-unit sequences, the comparison JS
`Array.prototype.sort()` applies to strings (UTF-16 code units; identical to
code points for the ASCII type names used here). -/
def strLt : List Char → List Char → Bool
  | [], [] => false
  | [], _ :: _ => true
  | _ :: _, [] => false
  | a :: as, b :: bs =>
    if a.toNat < b.toNat then true
    else if b.toNat < a.toNat then false
    else strLt as bs

/-- String "less or equal" for the default JS sort comparator. -/
def strLe (a b : String) : Bool := !(strLt b.data a.data)

/-- Insert into a `strLe`-sorted list of strings, keeping stability. -/
def sortedInsertStr (s : String) (l : List String) : List String :=
  match l with
  | [] => [s]
  | x :: rest => if strLe s x then s :: x :: rest else x :: sortedInsertStr s rest

/-- JS `Array.prototype.sort()` on strings: a stable sort by the default
string comparison. -/
def sortStr (l : List String) : List String :=
  match l with
  | [] => []
  | x :: rest => sortedInsertStr x (sortStr rest)

/-- The membership filter of `getEntitiesWith`: an entity matches when its
component map exists and has every listed type. -/
def matchesTypes (types : List String) (w : World) (e : ℕ) : Bool :=
  match alistGet w.components e with
  | some m => types.all (fun t => alistHas m t)
  | none => false

/-- `World.getEntitiesWith`: sort the requested types, refresh (clear) the
cache if it is invalid, then return the cached list for the sorted key or
lazily build it by filtering the entity list. -/
def getEntitiesWith (types : List String) (w : World) : List ℕ × World :=
  let sorted := sortStr types
  let cacheKey := String.intercalate "," sorted
  let w1 := if w.cacheValid then w
    else { w with entityComponentCache := [], cacheValid := true }
  match alistGet w1.entityComponentCache cacheKey with
  | some cached => (cached, w1)
  | none =>
    let matching := w1.entities.filter (matchesTypes sorted w1)
    (matching,
     { w1 with
       entityComponentCache := alistSet w1.entityComponentCache cacheKey matching })

/-- The naive full scan the spec compares `query(...)` against: filter the
entity list by "has every listed component type" (spec §4.2, §8). -/
def naiveScan (types : List String) (w : World) : List ℕ :=
  w.entities.filter (matchesTypes types w)

/-- `getComponent<PositionComponent>(e, "Position")`, typed. A component
stored under a type key always has that constructor (every insertion goes
through `addComponent`, which keys by `Component.ctype`), so the mismatch
branch is unreachable and reads as "absent", like the JS idiom. -/
def getPosition (e : ℕ) (w : World) : Option PositionData :=
  match getComponent e "Position" w with
  | some (.position p) => some p
  | _ => none

/-- `getComponent<SizeComponent>(e, "Size")`, typed. -/
def getSize (e : ℕ) (w : World) : Option SizeData :=
  match getComponent e "Size" w with
  | some (.size s) => some s
  | _ => none

/-- `getComponent<VelocityComponent>(e, "Velocity")`, typed. -/
def getVelocity (e : ℕ) (w : World) : Option VelocityData :=
  match getComponent e "Velocity" w with
  | some (.velocity v) => some v
  | _ => none

/-- `getComponent<HealthComponent>(e, "Health")`, typed. -/
def getHealth (e : ℕ) (w : World) : Option HealthData :=
  match getComponent e "Health" w with
  | some (.health h) => some h
  | _ => none

/-- `getComponent<PlayerComponent>(e, "Player")`, typed. -/
def getPlayer (e : ℕ) (w : World) : Option PlayerData :=
  match getComponent e "Player" w with
  | some (.player p) => some p
  | _ => none

/-- `getComponent<EnemyComponent>(e, "Enemy")`, typed. -/
def getEnemy (e : ℕ) (w : World) : Option EnemyData :=
  match getComponent e "Enemy" w with
  | some (.enemy d) => some d
  | _ => none

/-- `getComponent<PowerupComponent>(e, "Powerup")`, typed. -/
def getPowerup (e : ℕ) (w : World) : Option PowerupData :=
  match getComponent e "Powerup" w with
  | some (.powerup p) => some p
  | _ => none

/-- `getComponent<BulletComponent>(e, "Bullet")`, typed. -/
def getBullet (e : ℕ) (w : World) : Option BulletData :=
  match getComponent e "Bullet" w with
  | some (.bullet b) => some b
  | _ => none

/-- `getComponent<MultiplierComponent>(e, "Multiplier")`, typed. -/
def getMultiplier (e : ℕ) (w : World) : Option MultiplierData :=
  match getComponent e "Multiplier" w with
  | some (.multiplier m) => some m
  | _ => none

/-- `getComponent<CooldownModifierComponent>(e, "CooldownModifier")`, typed. -/
def getCooldown (e : ℕ) (w : World) : Option CooldownData :=
  match getComponent e "CooldownModifier" w with
  | some (.cooldownModifier c) => some c
  | _ => none

/-- `getComponent<GameStateComponent>(e, "GameState")`, typed. -/
def getGameState (e : ℕ) (w : World) : Option GameStateData :=
  match getComponent e "GameState" w with
  | some (.gameState g) => some g
  | _ => none

/-- `getComponent<TagComponent>(e, "Tag")`, typed (the `tag` string field). -/
def getTag (e : ℕ) (w : World) : Option String :=
  match getComponent e "Tag" w with
  | some (.tag t) => some t
  | _ => none

/-! ### Evaluation of the sorted cache keys for every query the systems issue -/

theorem sortStr_bulletQuery : sortStr ["Bullet", "Position", "Size", "Collision"] = ["Bullet", "Collision", "Position", "Size"] := by decide

theorem key_bulletQuery : String.intercalate "," ["Bullet", "Collision", "Position", "Size"] = "Bullet,Collision,Position,Size" := rfl

theorem sortStr_enemyQuery : sortStr ["Enemy", "Position", "Size", "Collision", "Health"] = ["Collision", "Enemy", "Health", "Position", "Size"] := by decide

theorem key_enemyQuery : String.intercalate "," ["Collision", "Enemy", "Health", "Position", "Size"] = "Collision,Enemy,Health,Position,Size" := rfl

theorem sortStr_powerupQuery5 : sortStr ["Powerup", "Position", "Size", "Collision", "Health"] = ["Collision", "Health", "Position", "Powerup", "Size"] := by decide

theorem key_powerupQuery5 : String.intercalate "," ["Collision", "Health", "Position", "Powerup", "Size"] = "Collision,Health,Position,Powerup,Size" := rfl

theorem sortStr_playerQuery4 : sortStr ["Player", "Position", "Size", "Collision"] = ["Collision", "Player", "Position", "Size"] := by decide

theorem key_playerQuery4 : String.intercalate "," ["Collision", "Player", "Position", "Size"] = "Collision,Player,Position,Size" := rfl

theorem sortStr_powerupQuery4 : sortStr ["Powerup", "Position", "Size", "Collision"] = ["Collision", "Position", "Powerup", "Size"] := by decide

theorem key_powerupQuery4 : String.intercalate "," ["Collision", "Position", "Powerup", "Size"] = "Collision,Position,Powerup,Size" := rfl

theorem sortStr_posVel : sortStr ["Position", "Velocity"] = ["Position", "Velocity"] := by decide

theorem key_posVel : String.intercalate "," ["Position", "Velocity"] = "Position,Velocity" := rfl

theorem sortStr_posSize : sortStr ["Position", "Size"] = ["Position", "Size"] := by decide

theorem key_posSize : String.intercalate "," ["Position", "Size"] = "Position,Size" := rfl

theorem sortStr_enemyPosSize : sortStr ["Enemy", "Position", "Size"] = ["Enemy", "Position", "Size"] := by decide

theorem key_enemyPosSize : String.intercalate "," ["Enemy", "Position", "Size"] = "Enemy,Position,Size" := rfl

theorem sortStr_playerSize : sortStr ["Player", "Size"] = ["Player", "Size"] := by decide

theorem key_playerSize : String.intercalate "," ["Player", "Size"] = "Player,Size" := rfl

theorem sortStr_playerQ : sortStr ["Player"] = ["Player"] := by decide

theorem key_playerQ : String.intercalate "," ["Player"] = "Player" := rfl

theorem sortStr_tagQ : sortStr ["Tag"] = ["Tag"] := by decide

theorem key_tagQ : String.intercalate "," ["Tag"] = "Tag" := rfl

theorem sortStr_multiplierQ : sortStr ["Multiplier"] = ["Multiplier"] := by decide

theorem key_multiplierQ : String.intercalate "," ["Multiplier"] = "Multiplier" := rfl

theorem sortStr_collisionQ : sortStr ["Collision"] = ["Collision"] := by decide

theorem key_collisionQ : String.intercalate "," ["Collision"] = "Collision" := rfl

theorem sortStr_cooldownQ : sortStr ["CooldownModifier"] = ["CooldownModifier"] := by decide

theorem key_cooldownQ : String.intercalate "," ["CooldownModifier"] = "CooldownModifier" := rfl

theorem sortStr_healthQ : sortStr ["Health"] = ["Health"] := by decide

theorem key_healthQ : String.intercalate "," ["Health"] = "Health" := rfl

theorem sortStr_bulletQ : sortStr ["Bullet"] = ["Bullet"] := by decide

theorem key_bulletQ : String.intercalate "," ["Bullet"] = "Bullet" := rfl

theorem sortStr_gameStateQ : sortStr ["GameState"] = ["GameState"] := by decide

theorem key_gameStateQ : String.intercalate "," ["GameState"] = "GameState" := rfl

/-! ## MovementSystem (MovementSystem.ts)

`update` queries Position+Velocity and applies `position += velocity * dt`.
There is no pause check anywhere in this system. -/

/-- One iteration of the movement loop body. -/
def movementStep (dt : ℚ) (w : World) (e : ℕ) : World :=
  match getPosition e w, getVelocity e w with
  | some p, some v =>
    updateComponent e "Position"
      (.position { p with x := p.x + v.speedX * dt, y := p.y + v.speedY * dt }) w
  | _, _ => w

/-- `MovementSystem.update(deltaTime)`. -/
def movementUpdate (dt : ℚ) (w : World) : World :=
  let (entities, w) := getEntitiesWith ["Position", "Velocity"] w
  entities.foldl (movementStep dt) w

/-! ## PowerupSystem (the `PowerupSystem` source) -/

/-- `PowerupSystem.updateCooldownModifier`: decrement a positive
`timeRemaining` by `dt` and remove the component once it reaches `≤ 0`. -/
def updateCooldownModifier (e : ℕ) (dt : ℚ) (w : World) : World :=
  match getCooldown e w with
  | none => w
  | some cm =>
    if cm.timeRemaining > 0 then
      let cm' := { cm with timeRemaining := cm.timeRemaining - dt }
      let w := updateComponent e "CooldownModifier" (.cooldownModifier cm') w
      if cm'.timeRemaining ≤ 0 then removeComponent e "CooldownModifier" w else w
    else w

/-- `PowerupSystem.update(deltaTime)`. -/
def powerupUpdate (dt : ℚ) (w : World) : World :=
  let (entities, w) := getEntitiesWith ["CooldownModifier"] w
  entities.foldl (fun w e => updateCooldownModifier e dt w) w

/-- `PowerupSystem.applyRapidFirePowerup(entity, duration, multiplier)`:
if an existing modifier has a strictly higher multiplier than the new one,
replace it; otherwise (existing multiplier ≤ new) return without change;
with no existing modifier, add the new one. -/
def applyRapidFirePowerup (e : ℕ) (duration mult : ℚ) (w : World) : World :=
  match getCooldown e w with
  | some existing =>
    if mult < existing.bulletCooldownMultiplier then
      let w := removeComponent e "CooldownModifier" w
      addComponent e (.cooldownModifier ⟨mult, duration, duration⟩) w
    else w
  | none => addComponent e (.cooldownModifier ⟨mult, duration, duration⟩) w

/-- `PowerupSystem.processPowerup(playerEntity, powerupEntity)`: dispatch on
the powerup subtype (the unrecognized-subtype branch only logs a warning). -/
def processPowerup (playerE powerupE : ℕ) (w : World) : World :=
  match getPowerup powerupE w with
  | none => w
  | some pu =>
    if pu.powerupType = "superRapidFire" then
      applyRapidFirePowerup playerE 15 (1/4) w
    else if pu.powerupType = "rapidFire" then
      applyRapidFirePowerup playerE 15 (1/2) w
    else if pu.powerupType = "normalizedFire" then
      match getComponent playerE "CooldownModifier" w with
      | some _ => removeComponent playerE "CooldownModifier" w
      | none => w
    else w

/-! ## SpawnSystem (the `SpawnSystem` source)

The two accumulators `lastEnemySpawnTime` / `lastPowerupSpawnTime` are
instance fields of the system; they are threaded explicitly. The random
subtype chosen by `Math.floor(Math.random() * 4)` in `spawnPowerup` is an
oracle input `randIndex`. -/

/-- The spawn-system configuration record. -/
structure SpawnConfig where
  canvasWidth : ℚ
  canvasHeight : ℚ
  leftSideX : ℚ
  rightSideX : ℚ
  leftSideSpawnInterval : ℚ
  rightSideSpawnInterval : ℚ
deriving DecidableEq, Repr

/-- The mutable instance state of `SpawnSystem`. -/
structure SpawnState where
  lastEnemySpawnTime : ℚ
  lastPowerupSpawnTime : ℚ
deriving DecidableEq, Repr

/-- `SpawnSystem.spawnEnemy`: create an entity with the fixed enemy bundle. -/
def spawnEnemy (cfg : SpawnConfig) (w : World) : World :=
  let (enemy, w) := createEntity w
  let w := addComponent enemy (.position ⟨cfg.leftSideX - 15, -30, 0⟩) w
  let w := addComponent enemy (.size ⟨30, 30⟩) w
  let w := addComponent enemy (.velocity ⟨0, 50⟩) w
  let w := addComponent enemy (.render "red" "rectangle") w
  let w := addComponent enemy (.health ⟨1, 1⟩) w
  let w := addComponent enemy (.collision ⟨true, 0, "enemy"⟩) w
  addComponent enemy (.enemy ⟨"basic", 10⟩) w

/-- `SpawnSystem.spawnPowerup`: pick a subtype by the random index, map it to
a color, and create the powerup bundle. -/
def spawnPowerup (cfg : SpawnConfig) (randIndex : ℕ) (w : World) : World :=
  let powerupType := (["basic", "rapidFire", "superRapidFire",
    "normalizedFire"].getD randIndex "basic")
  let color :=
    if powerupType = "rapidFire" then "pink"
    else if powerupType = "superRapidFire" then "orange"
    else if powerupType = "normalizedFire" then "yellow"
    else "tan"
  let (powerup, w) := createEntity w
  let w := addComponent powerup (.position ⟨cfg.rightSideX - 15, -30, 0⟩) w
  let w := addComponent powerup (.size ⟨30, 30⟩) w
  let w := addComponent powerup (.velocity ⟨0, 75⟩) w
  let w := addComponent powerup (.render color "rectangle") w
  let w := addComponent powerup (.health ⟨1, 1⟩) w
  let w := addComponent powerup (.collision ⟨true, 0, "powerup"⟩) w
  addComponent powerup (.powerup ⟨powerupType, 1⟩) w

/-- `SpawnSystem.update(deltaTime)`: find the game-state entity; return
unchanged when missing, paused or game over; otherwise advance the two
accumulators, spawning and resetting an accumulator to 0 when it exceeds its
interval. -/
def spawnUpdate (cfg : SpawnConfig) (randIndex : ℕ) (dt : ℚ)
    (st : SpawnState) (w : World) : SpawnState × World :=
  let (gameStateEntities, w) := getEntitiesWith ["GameState"] w
  match gameStateEntities with
  | [] => (st, w)
  | gse :: _ =>
    match getGameState gse w with
    | none => (st, w)
    | some gs =>
      if gs.isPaused || gs.isGameOver then (st, w)
      else
        let enemyT := st.lastEnemySpawnTime + dt
        let (enemyT, w) :=
          if enemyT > cfg.leftSideSpawnInterval then (0, spawnEnemy cfg w)
          else (enemyT, w)
        let powerupT := st.lastPowerupSpawnTime + dt
        let (powerupT, w) :=
          if powerupT > cfg.rightSideSpawnInterval then
            (0, spawnPowerup cfg randIndex w)
          else (powerupT, w)
        (⟨enemyT, powerupT⟩, w)

/-! ## CleanupSystem (CleanupSystem.ts) -/

/-- `CleanupSystem.update`: remove every entity whose health is `≤ 0`, then
every bullet whose `hit` flag is set. -/
def cleanupUpdate (w : World) : World :=
  let (healthEntities, w) := getEntitiesWith ["Health"] w
  let deadEntities := healthEntities.filter (fun e =>
    match getHealth e w with
    | some h => h.currentHealth ≤ 0
    | none => false)
  let w := deadEntities.foldl (fun w e => removeEntity e w) w
  let (bulletEntities, w) := getEntitiesWith ["Bullet"] w
  let hitBullets := bulletEntities.filter (fun e =>
    match getBullet e w with
    | some b => b.hit
    | none => false)
  hitBullets.foldl (fun w e => removeEntity e w) w

/-! ## CollisionSystem (CollisionSystem.ts, second revision)

The phases run in the order: bullet collisions, player-powerup collisions,
off-screen sweep, bottom-reached check, multiplier cloning. Two phases can
dereference `undefined` and are therefore `Except`-valued. -/

/-- The JS `TypeError` thrown on a property access of `undefined`. -/
def typeError : String := "TypeError: Cannot read properties of undefined"

/-- `CollisionSystem.isColliding`: strict AABB overlap test. -/
def isColliding (pos1 : PositionData) (size1 : SizeData)
    (pos2 : PositionData) (size2 : SizeData) : Bool :=
  pos1.x < pos2.x + size2.width &&
  pos1.x + size1.width > pos2.x &&
  pos1.y < pos2.y + size2.height &&
  pos1.y + size1.height > pos2.y

/-- The inner enemy loop of `checkBulletCollisions`, for one bullet. `bc` is
the live `bulletComponent` object (`none` when the store had no Bullet
component, in which case the field accesses on the collision path throw).
Returns the world together with the state of the live bullet object. -/
def bulletEnemyLoop (bulletE : ℕ) (bc : Option BulletData)
    (bPos : PositionData) (bSize : SizeData) :
    List ℕ → World → Except String (World × Option BulletData)
  | [], w => .ok (w, bc)
  | enemyE :: rest, w =>
    match getPosition enemyE w, getSize enemyE w, getHealth enemyE w with
    | some ePos, some eSize, some eHealth =>
      if isColliding bPos bSize ePos eSize then
        match bc with
        | none => .error typeError
        | some b =>
          let eh := { eHealth with
            currentHealth := eHealth.currentHealth - b.damage }
          let w := updateComponent enemyE "Health" (.health eh) w
          let b := { b with hit := true }
          let w := updateComponent bulletE "Bullet" (.bullet b) w
          if eh.currentHealth ≤ 0 then
            let enemyComp := getEnemy enemyE w
            let (players, w) := getEntitiesWith ["Player"] w
            match enemyComp, players with
            | some ed, p :: _ =>
              match getPlayer p w with
              | some pc =>
                .ok (updateComponent p "Player"
                  (.player { pc with score := pc.score.map (· + ed.pointValue) }) w,
                  some b)
              | none => .ok (w, some b)
            | _, _ => .ok (w, some b)
          else .ok (w, some b)
      else bulletEnemyLoop bulletE bc bPos bSize rest w
    | _, _, _ => bulletEnemyLoop bulletE bc bPos bSize rest w

/-- The powerup loop of `checkBulletCollisions`, entered only when the bullet
object `b` still has `hit = false` after the enemy loop. -/
def bulletPowerupLoop (bulletE : ℕ) (b : BulletData)
    (bPos : PositionData) (bSize : SizeData) : List ℕ → World → World
  | [], w => w
  | puE :: rest, w =>
    match getPosition puE w, getSize puE w, getHealth puE w with
    | some puPos, some puSize, some puHealth =>
      if isColliding bPos bSize puPos puSize then
        let ph := { puHealth with
          currentHealth := puHealth.currentHealth - b.damage }
        let w := updateComponent puE "Health" (.health ph) w
        let w :=
          if ph.currentHealth ≤ 0 then
            if getSystems "PowerupSystem" w ≠ [] then
              let (players, w) :=
                getEntitiesWith ["Player", "Position", "Size", "Collision"] w
              players.foldl (fun w p => processPowerup p puE w) w
            else w
          else w
        updateComponent bulletE "Bullet" (.bullet { b with hit := true }) w
      else bulletPowerupLoop bulletE b bPos bSize rest w
    | _, _, _ => bulletPowerupLoop bulletE b bPos bSize rest w

/-- The body of the outer bullet loop of `checkBulletCollisions` for one
bullet entity. -/
def processBullet (enemies powerups : List ℕ) (w : World) (bulletE : ℕ) :
    Except String World :=
  let bc := getBullet bulletE w
  if bc.any (fun b => b.hit) then .ok w
  else
    match getPosition bulletE w, getSize bulletE w with
    | some bPos, some bSize =>
      match bulletEnemyLoop bulletE bc bPos bSize enemies w with
      | .error msg => .error msg
      | .ok (w, bc) =>
        match bc with
        | none => .error typeError
        | some b =>
          .ok (if b.hit then w else bulletPowerupLoop bulletE b bPos bSize powerups w)
    | _, _ => .ok w

/-- `CollisionSystem.checkBulletCollisions`. -/
def checkBulletCollisions (w : World) : Except String World :=
  let (bullets, w) := getEntitiesWith ["Bullet", "Position", "Size", "Collision"] w
  let (enemies, w) :=
    getEntitiesWith ["Enemy", "Position", "Size", "Collision", "Health"] w
  let (powerups, w) :=
    getEntitiesWith ["Powerup", "Position", "Size", "Collision", "Health"] w
  bullets.foldlM (processBullet enemies powerups) w

/-- The powerup loop of `checkPlayerPowerupCollisions`. `pHealth` is the live
`playerHealth` object fetched before the loop; when it is `undefined` the
assignment `playerHealth.currentHealth = 0` on a collision throws. -/
def playerPowerupLoop (playerE : ℕ) (pPos : PositionData) (pSize : SizeData)
    (pHealth : Option HealthData) : List ℕ → World → Except String World
  | [], w => .ok w
  | puE :: rest, w =>
    match getPosition puE w, getSize puE w, getPowerup puE w, getHealth puE w with
    | some puPos, some puSize, some _, some _ =>
      if isColliding pPos pSize puPos puSize then
        match pHealth with
        | none => .error typeError
        | some ph =>
          let w := updateComponent playerE "Health"
            (.health { ph with currentHealth := 0 }) w
          playerPowerupLoop playerE pPos pSize pHealth rest w
      else playerPowerupLoop playerE pPos pSize pHealth rest w
    | _, _, _, _ => playerPowerupLoop playerE pPos pSize pHealth rest w

/-- `CollisionSystem.checkPlayerPowerupCollisions`: only the first entity of
the player query is considered; overlap with a powerup zeroes its health. -/
def checkPlayerPowerupCollisions (w : World) : Except String World :=
  let (players, w) := getEntitiesWith ["Player", "Position", "Size", "Collision"] w
  let (powerups, w) := getEntitiesWith ["Powerup", "Position", "Size", "Collision"] w
  if players.isEmpty || powerups.isEmpty then .ok w
  else
    match players with
    | [] => .ok w
    | playerE :: _ =>
      let pHealth := getHealth playerE w
      match getPosition playerE w, getSize playerE w with
      | some pPos, some pSize =>
        playerPowerupLoop playerE pPos pSize pHealth powerups w
      | _, _ => .ok w

/-- The body of the `checkOffscreenEntities` loop for one entity. -/
def offscreenStep (gw gh : ℚ) (w : World) (e : ℕ) : World :=
  match getPosition e w, getSize e w with
  | some pos, some size =>
    if pos.y > gh || pos.y + size.height < 0 ||
        pos.x > gw || pos.x + size.width < 0 then
      let w :=
        match getBullet e w with
        | some b => updateComponent e "Bullet" (.bullet { b with hit := true }) w
        | none => w
      if (getEnemy e w).isSome || (getPowerup e w).isSome then
        match getHealth e w with
        | some h => updateComponent e "Health" (.health { h with currentHealth := 0 }) w
        | none => w
      else w
    else w
  | _, _ => w

/-- `CollisionSystem.checkOffscreenEntities`. -/
def checkOffscreenEntities (gw gh : ℚ) (w : World) : World :=
  let (entities, w) := getEntitiesWith ["Position", "Size"] w
  entities.foldl (offscreenStep gw gh) w

/-- The search for the `"gameState"`-tagged entity in
`checkEnemyReachedBottom`. -/
def findGameStateEntity : List ℕ → World → Option ℕ
  | [], _ => none
  | e :: rest, w =>
    if getTag e w = some "gameState" then some e
    else findGameStateEntity rest w

/-- The enemy loop of `checkEnemyReachedBottom`: the first enemy whose
`y + height - playerSize.height` reaches the game height sets `isGameOver`
and breaks. `playerSize` is the live object of the first player's Size; when
it is `undefined`, reading `.height` throws. -/
def enemyBottomLoop (gh : ℚ) (playerSize : Option SizeData) (gse : ℕ) :
    List ℕ → World → Except String World
  | [], w => .ok w
  | e :: rest, w =>
    match getPosition e w, getSize e w with
    | some pos, some size =>
      match playerSize with
      | none => .error typeError
      | some ps =>
        if pos.y + size.height - ps.height ≥ gh then
          match getGameState gse w with
          | some g =>
            .ok (updateComponent gse "GameState"
              (.gameState { g with isGameOver := true }) w)
          | none => .ok w
        else enemyBottomLoop gh playerSize gse rest w
    | _, _ => enemyBottomLoop gh playerSize gse rest w

/-- `CollisionSystem.checkEnemyReachedBottom`: find the `"gameState"`-tagged
entity, then unconditionally dereference the first entity of the
`("Player", "Size")` query - a `TypeError` when no player exists. -/
def checkEnemyReachedBottom (gh : ℚ) (w : World) : Except String World :=
  let (enemies, w) := getEntitiesWith ["Enemy", "Position", "Size"] w
  let (tagEntities, w) := getEntitiesWith ["Tag"] w
  match findGameStateEntity tagEntities w with
  | none => .ok w
  | some gse =>
    let (players, w) := getEntitiesWith ["Player", "Size"] w
    match players with
    | [] => .error typeError
    | p :: _ => enemyBottomLoop gh (getSize p w) gse enemies w

/-- Modelled from the spec: `World.cloneEntity` is invoked by the multiplier
phase but its definition is not among the repository sources (only this call
site is). Per the spec the clones are "full copies of the original's
component set", so it creates a fresh entity whose component map is a copy of
the original's, invalidating the query cache like any structural mutation. -/
def cloneEntity (orig : ℕ) (w : World) : ℕ × World :=
  let id := w.nextId
  let m := (alistGet w.components orig).getD []
  (id, { w with
    entities := w.entities ++ [id],
    components := alistSet w.components id m,
    cacheValid := false,
    nextId := id + 1 })

/-- One iteration (index `i`) of the clone loop in
`checkCollisionsWithMultiplier`: clone the original entity, then place the
clone at the exit side, horizontally offset (for `i ≠ 0`) and clamped to the
zone's horizontal extent. -/
def cloneStep (mPos : PositionData) (mSize : SizeData) (cPos : PositionData)
    (cSize : SizeData) (fromBottom : Bool) (nVal : ℕ) (origE : ℕ)
    (w : World) (i : ℕ) : World :=
  let exitY := if fromBottom then mPos.y + mSize.height + 2
    else mPos.y - mSize.height - cSize.height - 2
  let (cloneE, w) := cloneEntity origE w
  match getPosition cloneE w, getSize cloneE w with
  | some clonePos, some cloneSize =>
    let _totalClonedWidth := cloneSize.width * (nVal : ℚ)
    let spacing := 2 * cSize.width
    let clonePos :=
      if i ≠ 0 then
        let startX := cPos.x + spacing
        let newX := startX + (i : ℚ) * (cloneSize.width + spacing)
        if newX > mPos.x + mSize.width then { clonePos with x := mPos.x + mSize.width }
        else if newX < mPos.x then { clonePos with x := mPos.x }
        else { clonePos with x := newX }
      else clonePos
    updateComponent cloneE "Position" (.position { clonePos with y := exitY }) w
  | _, _ => removeEntity cloneE w

/-- The inner collidable loop of `checkCollisionsWithMultiplier` for one
multiplier zone: skip self, skip entities without Position/Size, and on the
first overlap run the clone loop, remove the original, and break. -/
def multiplierInnerLoop (mE : ℕ) (mData : MultiplierData) (mPos : PositionData)
    (mSize : SizeData) : List ℕ → World → World
  | [], w => w
  | cE :: rest, w =>
    if cE = mE then multiplierInnerLoop mE mData mPos mSize rest w
    else
      match getPosition cE w, getSize cE w with
      | some cPos, some cSize =>
        if isColliding mPos mSize cPos cSize then
          let fromBottom :=
            decide (cPos.y + cSize.height ≤ mPos.y + mSize.height)
          let w := (List.range mData.value).foldl
            (cloneStep mPos mSize cPos cSize fromBottom mData.value cE) w
          removeEntity cE w
        else multiplierInnerLoop mE mData mPos mSize rest w
      | _, _ => multiplierInnerLoop mE mData mPos mSize rest w

/-- The outer multiplier loop of `checkCollisionsWithMultiplier` (the
collidable list was captured before the loop and is shared by all zones). -/
def multiplierOuterLoop (collidables : List ℕ) : List ℕ → World → World
  | [], w => w
  | mE :: rest, w =>
    let w :=
      match getMultiplier mE w, getPosition mE w, getSize mE w with
      | some md, some mp, some ms => multiplierInnerLoop mE md mp ms collidables w
      | _, _, _ => w
    multiplierOuterLoop collidables rest w

/-- `CollisionSystem.checkCollisionsWithMultiplier`. -/
def checkCollisionsWithMultiplier (w : World) : World :=
  let (multipliers, w) := getEntitiesWith ["Multiplier"] w
  let (collidables, w) := getEntitiesWith ["Collision"] w
  multiplierOuterLoop collidables multipliers w

/-- `CollisionSystem.update(deltaTime)` (second revision): the five phases in
their fixed order. The elapsed time is unused by this system. -/
def collisionUpdate (gw gh : ℚ) (w : World) : Except String World := do
  let w ← checkBulletCollisions w
  let w ← checkPlayerPowerupCollisions w
  let w := checkOffscreenEntities gw gh w
  let w ← checkEnemyReachedBottom gh w
  pure (checkCollisionsWithMultiplier w)

/-! ## Structural-mutation sequences (for the query-coherence claims) -/

/-- One structural mutation of the store: `createEntity`, `removeEntity`,
`addComponent` or `removeComponent`. -/
inductive Op where
  | create : Op
  | destroy (e : ℕ) : Op
  | add (e : ℕ) (c : Component) : Op
  | removeComp (e : ℕ) (t : String) : Op
deriving DecidableEq, Repr

/-- Apply one mutation. -/
def applyOp (w : World) (op : Op) : World :=
  match op with
  | .create => (createEntity w).2
  | .destroy e => removeEntity e w
  | .add e c => addComponent e c w
  | .removeComp e t => removeComponent e t w

/-- Apply a sequence of mutations in order. -/
def applyOps (ops : List Op) (w : World) : World := ops.foldl applyOp w

/-! ### Association-list and sorting lemmas -/

theorem mem_sortedInsertStr {x s : String} {l : List String} :
    x ∈ sortedInsertStr s l ↔ x = s ∨ x ∈ l := by
  induction l with
  | nil => simp [sortedInsertStr]
  | cons a rest ih =>
    simp only [sortedInsertStr]
    split
    · simp
    · simp only [List.mem_cons, ih]
      tauto

theorem mem_sortStr {x : String} {l : List String} : x ∈ sortStr l ↔ x ∈ l := by
  induction l with
  | nil => simp [sortStr]
  | cons a rest ih => simp [sortStr, mem_sortedInsertStr, ih]

theorem all_eq_of_mem_iff {α : Type} {l l' : List α}
    (h : ∀ x, x ∈ l ↔ x ∈ l') (p : α → Bool) : l.all p = l'.all p := by
  rw [Bool.eq_iff_iff]
  simp only [List.all_eq_true]
  constructor
  · intro H x hx
    exact H x ((h x).mpr hx)
  · intro H x hx
    exact H x ((h x).mp hx)

theorem matchesTypes_sortStr (types : List String) (w : World) (e : ℕ) :
    matchesTypes (sortStr types) w e = matchesTypes types w e := by
  unfold matchesTypes
  cases alistGet w.components e with
  | none => rfl
  | some m => exact all_eq_of_mem_iff (fun x => mem_sortStr) _

theorem alistGet_nil {α β : Type} [DecidableEq α] (k : α) :
    alistGet ([] : List (α × β)) k = none := rfl

/-- With an invalid cache, `getEntitiesWith` clears the cache and computes
exactly the naive scan. -/
theorem getEntitiesWith_fst_of_cacheValid_false (types : List String)
    (w : World) (h : w.cacheValid = false) :
    (getEntitiesWith types w).1 = naiveScan types w := by
  unfold getEntitiesWith naiveScan
  rw [h]
  simp only [Bool.false_eq_true, if_false, alistGet_nil]
  exact List.filter_congr (fun e _ => matchesTypes_sortStr types _ e)

/-- Every structural mutation leaves the cache invalid (the only place that
re-validates it is `refreshCache`, called from `getEntitiesWith`). -/
theorem applyOp_cacheValid (w : World) (op : Op) (h : w.cacheValid = false) :
    (applyOp w op).cacheValid = false := by
  cases op with
  | create => rfl
  | destroy e =>
    show (removeEntity e w).cacheValid = false
    unfold removeEntity
    split <;> simp [h]
  | add e c =>
    show (addComponent e c w).cacheValid = false
    unfold addComponent
    cases hg : alistGet w.components e <;> simp [hg, h]
  | removeComp e t =>
    show (removeComponent e t w).cacheValid = false
    unfold removeComponent
    cases hg : alistGet w.components e <;> simp [hg, h]

theorem applyOps_cacheValid (ops : List Op) (w : World)
    (h : w.cacheValid = false) : (applyOps ops w).cacheValid = false := by
  induction ops generalizing w with
  | nil => exact h
  | cons op rest ih => exact ih (applyOp w op) (applyOp_cacheValid w op h)

/-! ### Store-synchronization invariant: after any mutation sequence the
component-map keys are exactly the entity list, and all ids are below
`nextId`. -/

theorem map_fst_alistDelete {β : Type} (l : List (ℕ × β)) (k : ℕ) :
    (alistDelete l k).map Prod.fst = (l.map Prod.fst).erase k := by
  induction l with
  | nil => rfl
  | cons a rest ih =>
    obtain ⟨a1, a2⟩ := a
    unfold alistDelete
    by_cases hk : a1 = k
    · subst hk
      simp [List.erase_cons]
    · simp [hk, List.erase_cons, ih]

theorem map_fst_alistSet_of_mem {β : Type} (l : List (ℕ × β)) (k : ℕ) (v : β)
    (h : k ∈ l.map Prod.fst) : (alistSet l k v).map Prod.fst = l.map Prod.fst := by
  induction l with
  | nil => simp at h
  | cons a rest ih =>
    obtain ⟨a1, a2⟩ := a
    unfold alistSet
    by_cases hk : a1 = k
    · subst hk
      simp
    · simp only [List.map_cons] at h ⊢
      rcases List.mem_cons.mp h with h1 | h2
      · exact absurd h1.symm hk
      · simp [hk, ih h2]

theorem map_fst_alistSet_of_not_mem {β : Type} (l : List (ℕ × β)) (k : ℕ) (v : β)
    (h : k ∉ l.map Prod.fst) :
    (alistSet l k v).map Prod.fst = l.map Prod.fst ++ [k] := by
  induction l with
  | nil => rfl
  | cons a rest ih =>
    obtain ⟨a1, a2⟩ := a
    unfold alistSet
    simp only [List.map_cons, List.mem_cons] at h
    push_neg at h
    simp [Ne.symm h.1, ih h.2]

theorem alistGet_eq_none_iff {β : Type} (l : List (ℕ × β)) (k : ℕ) :
    alistGet l k = none ↔ k ∉ l.map Prod.fst := by
  induction l with
  | nil => simp [alistGet]
  | cons a rest ih =>
    obtain ⟨a1, a2⟩ := a
    unfold alistGet
    by_cases hk : a1 = k
    · subst hk
      simp
    · simp [hk, ih, Ne.symm hk]

/-- The well-formedness invariant of reachable worlds. -/
def WFWorld (w : World) : Prop :=
  w.components.map Prod.fst = w.entities ∧ ∀ e ∈ w.entities, e < w.nextId

theorem wfWorld_init (sys : List String) : WFWorld (World.init sys) := by
  constructor <;> simp [World.init]

theorem wfWorld_applyOp (w : World) (op : Op) (h : WFWorld w) :
    WFWorld (applyOp w op) := by
  obtain ⟨hsync, hbound⟩ := h
  cases op with
  | create =>
    refine ⟨?_, ?_⟩
    · show (alistSet w.components w.nextId []).map Prod.fst = w.entities ++ [w.nextId]
      rw [map_fst_alistSet_of_not_mem, hsync]
      rw [hsync]
      intro hmem
      exact absurd rfl (Nat.ne_of_lt (hbound _ hmem)).symm
    · intro e he
      rcases List.mem_append.mp he with h1 | h2
      · exact Nat.lt_succ_of_lt (hbound e h1)
      · simp at h2
        subst h2
        exact Nat.lt_succ_self _
  | destroy e =>
    show WFWorld (removeEntity e w)
    unfold removeEntity
    split
    · refine ⟨?_, ?_⟩
      · show (alistDelete w.components e).map Prod.fst = w.entities.erase e
        rw [map_fst_alistDelete, hsync]
      · intro x hx
        exact hbound x (List.mem_of_mem_erase hx)
    · exact ⟨hsync, hbound⟩
  | add e c =>
    show WFWorld (addComponent e c w)
    unfold addComponent
    cases hg : alistGet w.components e with
    | none => exact ⟨hsync, hbound⟩
    | some m =>
      refine ⟨?_, hbound⟩
      show (alistSet w.components e _).map Prod.fst = w.entities
      rw [map_fst_alistSet_of_mem, hsync]
      by_contra hmem
      exact absurd hg (by simp [(alistGet_eq_none_iff w.components e).mpr hmem])
  | removeComp e t =>
    show WFWorld (removeComponent e t w)
    unfold removeComponent
    cases hg : alistGet w.components e with
    | none => exact ⟨hsync, hbound⟩
    | some m =>
      refine ⟨?_, hbound⟩
      show (alistSet w.components e _).map Prod.fst = w.entities
      rw [map_fst_alistSet_of_mem, hsync]
      by_contra hmem
      exact absurd hg (by simp [(alistGet_eq_none_iff w.components e).mpr hmem])

theorem wfWorld_applyOps (ops : List Op) (w : World) (h : WFWorld w) :
    WFWorld (applyOps ops w) := by
  induction ops generalizing w with
  | nil => exact h
  | cons op rest ih => exact ih (applyOp w op) (wfWorld_applyOp w op h)

/-- With an invalid cache, `getEntitiesWith` refreshes the cache, computes
the naive scan and stores it under the sorted key. -/
theorem getEntitiesWith_of_cacheValid_false (types : List String) (w : World)
    (h : w.cacheValid = false) :
    getEntitiesWith types w =
      (naiveScan types w,
       { w with
         entityComponentCache :=
           [(String.intercalate "," (sortStr types), naiveScan types w)],
         cacheValid := true }) := by
  unfold getEntitiesWith
  rw [h]
  simp only [Bool.false_eq_true, if_false, alistGet_nil]
  have hf : List.filter (matchesTypes (sortStr types)
        { w with entityComponentCache := [], cacheValid := true }) w.entities =
      naiveScan types w := by
    unfold naiveScan
    exact List.filter_congr (fun e _ => matchesTypes_sortStr types _ e)
  rw [hf]
  rfl

/-- C1: after every sequence of createEntity / removeEntity / addComponent /
removeComponent operations on a World and for every list of component types,
`getEntitiesWith(types)` returns exactly the entities of a naive full scan
that have every listed component type; in particular such a query never
includes a removed entity or one missing a listed type, and never omits a
matching one. -/
theorem c1_query_equals_naive_scan (sys : List String) (ops : List Op)
    (types : List String) :
    (getEntitiesWith types (applyOps ops (World.init sys))).1 =
      naiveScan types (applyOps ops (World.init sys)) ∧
    ∀ e : ℕ, e ∈ (getEntitiesWith types (applyOps ops (World.init sys))).1 ↔
      e ∈ (applyOps ops (World.init sys)).entities ∧
        matchesTypes types (applyOps ops (World.init sys)) e = true := by
  have hcv : (applyOps ops (World.init sys)).cacheValid = false :=
    applyOps_cacheValid ops (World.init sys) rfl
  have heq := getEntitiesWith_fst_of_cacheValid_false types _ hcv
  refine ⟨heq, fun e => ?_⟩
  rw [heq]
  unfold naiveScan
  exact List.mem_filter

/-- C10: adding a component to an entity that is not present in the store
(never created or already removed) is a silent no-op: the world is unchanged,
the component cannot be looked up afterwards, and no query includes the
entity. -/
theorem c10_addComponent_absent_entity_noop (sys : List String) (ops : List Op)
    (e : ℕ) (c : Component) (t : String) (types : List String)
    (h : alistGet (applyOps ops (World.init sys)).components e = none) :
    addComponent e c (applyOps ops (World.init sys)) =
      applyOps ops (World.init sys) ∧
    getComponent e t (addComponent e c (applyOps ops (World.init sys))) = none ∧
    e ∉ (getEntitiesWith types
      (addComponent e c (applyOps ops (World.init sys)))).1 := by
  have hnoop : addComponent e c (applyOps ops (World.init sys)) =
      applyOps ops (World.init sys) := by
    unfold addComponent
    rw [h]
  refine ⟨hnoop, ?_, ?_⟩
  · rw [hnoop]
    unfold getComponent
    rw [h]
  · rw [hnoop]
    have hwf := wfWorld_applyOps ops (World.init sys) (wfWorld_init sys)
    have hcv : (applyOps ops (World.init sys)).cacheValid = false :=
      applyOps_cacheValid ops (World.init sys) rfl
    rw [getEntitiesWith_fst_of_cacheValid_false types _ hcv]
    intro hmem
    have hent := (List.mem_filter.mp hmem).1
    rw [← hwf.1] at hent
    exact absurd h (by simp [alistGet_eq_none_iff, hent])

/-- Witness for C10 at a concrete input: in the world built by a single
createEntity, entity 5 is absent, so adding a Position component to it
changes nothing and no query sees it. -/
theorem c10_addComponent_absent_entity_noop_witness :
    alistGet (applyOps [Op.create] (World.init [])).components 5 = none ∧
    (addComponent 5 (.position ⟨1, 2, 0⟩) (applyOps [Op.create] (World.init [])) =
        applyOps [Op.create] (World.init []) ∧
      getComponent 5 "Position"
        (addComponent 5 (.position ⟨1, 2, 0⟩)
          (applyOps [Op.create] (World.init []))) = none ∧
      5 ∉ (getEntitiesWith []
        (addComponent 5 (.position ⟨1, 2, 0⟩)
          (applyOps [Op.create] (World.init [])))).1) :=
  ⟨by decide, c10_addComponent_absent_entity_noop [] [Op.create] 5
    (.position ⟨1, 2, 0⟩) "Position" [] (by decide)⟩

/-! ## C4: behavior of Spawn / Movement / Collision under a paused GameState -/

/-- A concrete paused world: entity 0 carries the `"gameState"` tag and a
`GameStateComponent` with `isPaused = true`; entity 1 has Position (0,0) and
Velocity (1,0). -/
def pausedWorld : World :=
  let w := World.init []
  let w := (createEntity w).2
  let w := addComponent 0 (.tag "gameState") w
  let w := addComponent 0 (.gameState ⟨true, false, 0, 0, 3⟩) w
  let w := (createEntity w).2
  let w := addComponent 1 (.position ⟨0, 0, 0⟩) w
  addComponent 1 (.velocity ⟨1, 0⟩) w

/-- Counterexample to C4: in a paused world the Movement system does NOT
no-op - it has no pause check at all and advances Position by Velocity, so
component state changes during a paused tick. -/
theorem c4_counterexample_movement_runs_while_paused :
    getGameState 0 pausedWorld = some ⟨true, false, 0, 0, 3⟩ ∧
    getPosition 1 pausedWorld = some ⟨0, 0, 0⟩ ∧
    getPosition 1 (movementUpdate 1 pausedWorld) = some ⟨1, 0, 0⟩ := by
  refine ⟨by decide, by decide, ?_⟩
  norm_num [pausedWorld, movementUpdate, movementStep, getEntitiesWith, sortStr,
    sortedInsertStr, strLe, strLt, matchesTypes, alistGet, alistSet, alistHas,
    addComponent, createEntity, World.init, updateComponent, getPosition,
    getVelocity, getComponent, Component.ctype, naiveScan]

/-- C4 as amended: only the Spawn system checks the pause flag. When the
first entity of the GameState query is paused, `SpawnSystem.update` leaves
its accumulators and all entity/component state unchanged (only the query
cache may change); Movement and Collision have no pause check (see the
counterexample). -/
theorem c4_amended_spawn_noops_while_paused (cfg : SpawnConfig) (randIndex : ℕ)
    (dt : ℚ) (st : SpawnState) (w : World) (hcv : w.cacheValid = false)
    (gse : ℕ) (rest : List ℕ) (hscan : naiveScan ["GameState"] w = gse :: rest)
    (g : GameStateData) (hg : getGameState gse w = some g)
    (hp : g.isPaused = true) :
    (spawnUpdate cfg randIndex dt st w).1 = st ∧
    (spawnUpdate cfg randIndex dt st w).2.entities = w.entities ∧
    (spawnUpdate cfg randIndex dt st w).2.components = w.components ∧
    (spawnUpdate cfg randIndex dt st w).2.nextId = w.nextId := by
  unfold spawnUpdate
  rw [getEntitiesWith_of_cacheValid_false _ _ hcv, hscan]
  have hg1 : getGameState gse
      { w with
        entityComponentCache :=
          [(String.intercalate "," (sortStr ["GameState"]), gse :: rest)],
        cacheValid := true } = some g := hg
  simp only [hg1, hp]
  simp

/-- Witness for the amended C4 at a concrete input: `pausedWorld` is paused
and the Spawn system leaves it (and its accumulators) unchanged. -/
theorem c4_amended_spawn_noops_while_paused_witness :
    (pausedWorld.cacheValid = false ∧
      naiveScan ["GameState"] pausedWorld = 0 :: [] ∧
      getGameState 0 pausedWorld = some ⟨true, false, 0, 0, 3⟩ ∧
      (⟨true, false, 0, 0, 3⟩ : GameStateData).isPaused = true) ∧
    ((spawnUpdate ⟨800, 600, 100, 700, 2, 2⟩ 0 1 ⟨0, 0⟩ pausedWorld).1 = ⟨0, 0⟩ ∧
      (spawnUpdate ⟨800, 600, 100, 700, 2, 2⟩ 0 1 ⟨0, 0⟩ pausedWorld).2.entities =
        pausedWorld.entities ∧
      (spawnUpdate ⟨800, 600, 100, 700, 2, 2⟩ 0 1 ⟨0, 0⟩ pausedWorld).2.components =
        pausedWorld.components ∧
      (spawnUpdate ⟨800, 600, 100, 700, 2, 2⟩ 0 1 ⟨0, 0⟩ pausedWorld).2.nextId =
        pausedWorld.nextId) :=
  ⟨⟨by decide, by decide, by decide, rfl⟩,
    c4_amended_spawn_noops_while_paused ⟨800, 600, 100, 700, 2, 2⟩ 0 1 ⟨0, 0⟩
      pausedWorld (by decide) 0 [] (by decide) ⟨true, false, 0, 0, 3⟩
      (by decide) rfl⟩

/-! ## C8: applyRapidFirePowerup replacement policy -/

theorem alistGet_alistSet_self {α β : Type} [DecidableEq α]
    (l : List (α × β)) (k : α) (v : β) : alistGet (alistSet l k v) k = some v := by
  induction l with
  | nil => simp [alistSet, alistGet]
  | cons a rest ih =>
    obtain ⟨a1, a2⟩ := a
    unfold alistSet
    by_cases hk : a1 = k
    · simp [hk, alistGet]
    · simp [hk, alistGet, ih]

/-- Looking up the just-added component returns it, whenever the entity has a
component map. -/
theorem getComponent_addComponent_self (e : ℕ) (c : Component) (w : World)
    (m0 : ComponentMap) (h : alistGet w.components e = some m0) :
    getComponent e c.ctype (addComponent e c w) = some c := by
  unfold addComponent
  rw [h]
  unfold getComponent
  simp only [alistGet_alistSet_self]

/-- A world with one entity (id 0) that carries a CooldownModifier with
multiplier 2, total duration 15 and 3 seconds remaining. -/
def cooldownWorld : World :=
  let w := (createEntity (World.init ["PowerupSystem"])).2
  addComponent 0 (.cooldownModifier ⟨2, 15, 3⟩) w

/-- Counterexample to C8: on an existing modifier of EQUAL multiplier the
claim demands a replacement (timeRemaining reset to the new duration), but
`applyRapidFirePowerup` returns without touching it - the stale
`timeRemaining = 3` survives a call with duration 15 and the same
multiplier 2. -/
theorem c8_counterexample_equal_multiplier_not_replaced :
    getCooldown 0 cooldownWorld = some ⟨2, 15, 3⟩ ∧
    applyRapidFirePowerup 0 15 2 cooldownWorld = cooldownWorld ∧
    getCooldown 0 (applyRapidFirePowerup 0 15 2 cooldownWorld) = some ⟨2, 15, 3⟩ ∧
    (⟨2, 15, 3⟩ : CooldownData) ≠ ⟨2, 15, 15⟩ := by
  refine ⟨by decide, by decide, by decide, by decide⟩

/-- C8 as amended: if the entity already has a CooldownModifier whose
multiplier is lower than OR EQUAL to the new one, the call changes nothing
(in particular an equal-multiplier modifier is kept, its timeRemaining not
refreshed); only when the existing multiplier is strictly greater, or when
there is no existing modifier (and the entity is present in the store), does
the entity afterwards have a CooldownModifier with the new multiplier and
timeRemaining equal to the given duration. -/
theorem c8_amended_applyRapidFirePowerup (w : World) (e : ℕ) (dur mult : ℚ) :
    (∀ m : CooldownData, getCooldown e w = some m →
      m.bulletCooldownMultiplier ≤ mult →
      applyRapidFirePowerup e dur mult w = w) ∧
    (∀ m : CooldownData, getCooldown e w = some m →
      mult < m.bulletCooldownMultiplier →
      getCooldown e (applyRapidFirePowerup e dur mult w) =
        some ⟨mult, dur, dur⟩) ∧
    (getCooldown e w = none → (∃ m0, alistGet w.components e = some m0) →
      getCooldown e (applyRapidFirePowerup e dur mult w) =
        some ⟨mult, dur, dur⟩) := by
  refine ⟨?_, ?_, ?_⟩
  · intro m hm hle
    unfold applyRapidFirePowerup
    rw [hm]
    simp only [if_neg (not_lt.mpr hle)]
  · intro m hm hlt
    have hm0 : ∃ m0, alistGet w.components e = some m0 := by
      unfold getCooldown getComponent at hm
      rcases hg : alistGet w.components e with _ | m0
      · rw [hg] at hm
        exact absurd hm (by simp)
      · exact ⟨m0, rfl⟩
    obtain ⟨m0, hm0⟩ := hm0
    unfold applyRapidFirePowerup
    rw [hm]
    simp only [if_pos hlt]
    have hrm : alistGet (removeComponent e "CooldownModifier" w).components e =
        some (alistDelete m0 "CooldownModifier") := by
      unfold removeComponent
      rw [hm0]
      simp only
      exact alistGet_alistSet_self _ _ _
    have := getComponent_addComponent_self e
      (.cooldownModifier ⟨mult, dur, dur⟩)
      (removeComponent e "CooldownModifier" w) _ hrm
    unfold getCooldown
    rw [show (Component.cooldownModifier ⟨mult, dur, dur⟩).ctype =
      "CooldownModifier" from rfl] at this
    rw [this]
  · intro hnone hex
    obtain ⟨m0, hm0⟩ := hex
    unfold applyRapidFirePowerup
    rw [hnone]
    have := getComponent_addComponent_self e
      (.cooldownModifier ⟨mult, dur, dur⟩) w _ hm0
    unfold getCooldown
    rw [show (Component.cooldownModifier ⟨mult, dur, dur⟩).ctype =
      "CooldownModifier" from rfl] at this
    rw [this]

/-- Witness for the amended C8: the three cases at concrete inputs - keep on
equal multiplier, replace on strictly stronger new modifier, add when no
modifier exists. -/
theorem c8_amended_applyRapidFirePowerup_witness :
    applyRapidFirePowerup 0 15 2 cooldownWorld = cooldownWorld ∧
    getCooldown 0 (applyRapidFirePowerup 0 10 1 cooldownWorld) =
      some ⟨1, 10, 10⟩ ∧
    getCooldown 0 (applyRapidFirePowerup 0 10 1
      ((createEntity (World.init [])).2)) = some ⟨1, 10, 10⟩ :=
  ⟨(c8_amended_applyRapidFirePowerup cooldownWorld 0 15 2).1 ⟨2, 15, 3⟩
      (by decide) (by decide),
   (c8_amended_applyRapidFirePowerup cooldownWorld 0 10 1).2.1 ⟨2, 15, 3⟩
      (by decide) (by decide),
   (c8_amended_applyRapidFirePowerup ((createEntity (World.init [])).2)
      0 10 1).2.2 (by decide) ⟨[], by decide⟩⟩

/-! ## C9: error behavior of component lookups and system updates -/

/-- A world with a `"gameState"`-tagged entity (with a GameStateComponent)
and one enemy, but no player entity at all - for example the state right
after the Cleanup system removed a dead player. -/
def noPlayerWorld : World :=
  let w := (createEntity (World.init [])).2
  let w := addComponent 0 (.tag "gameState") w
  let w := addComponent 0 (.gameState ⟨false, false, 0, 0, 3⟩) w
  let w := (createEntity w).2
  let w := addComponent 1 (.enemy ⟨"basic", 10⟩) w
  let w := addComponent 1 (.position ⟨50, 50, 0⟩) w
  addComponent 1 (.size ⟨30, 30⟩) w

/-! ## C7: the bottom-reached game-over condition -/

theorem alistHas_of_alistGet {α β : Type} [DecidableEq α]
    {l : List (α × β)} {k : α} {v : β} (h : alistGet l k = some v) :
    alistHas l k = true := by
  induction l with
  | nil => exact absurd h (by simp [alistGet])
  | cons a rest ih =>
    obtain ⟨a1, a2⟩ := a
    unfold alistGet at h
    unfold alistHas
    by_cases hk : a1 = k
    · simp [hk]
    · rw [if_neg hk] at h
      simp [hk, ih h]

/-- Mutating a present component through its reference: the store afterwards
holds the new value. -/
theorem getComponent_updateComponent_self (e : ℕ) (t : String) (c : Component)
    (w : World) (v : Component) (h : getComponent e t w = some v) :
    getComponent e t (updateComponent e t c w) = some c := by
  have hsplit : ∃ m, alistGet w.components e = some m ∧ alistGet m t = some v := by
    unfold getComponent at h
    rcases hm : alistGet w.components e with _ | m
    · rw [hm] at h
      exact Option.noConfusion h
    · rw [hm] at h
      exact ⟨m, rfl, h⟩
  obtain ⟨m, hm, hmt⟩ := hsplit
  unfold updateComponent
  rw [hm]
  simp only [alistHas_of_alistGet hmt, if_true, getComponent,
    alistGet_alistSet_self]

/-- Unfolding of a successful typed GameState lookup. -/
theorem getComponent_of_getGameState {e : ℕ} {w : World} {g : GameStateData}
    (h : getGameState e w = some g) :
    getComponent e "GameState" w = some (.gameState g) := by
  unfold getGameState at h
  rcases hc : getComponent e "GameState" w with _ | c
  · rw [hc] at h
    exact Option.noConfusion h
  · rw [hc] at h
    cases c <;> simp_all

/-- The threshold the code actually tests for one enemy: its lower edge,
shifted up by the first player's height, reaches the game height. -/
def bottomCross (gh : ℚ) (ps : SizeData) (w : World) (e : ℕ) : Bool :=
  match getPosition e w, getSize e w with
  | some pos, some size => decide (pos.y + size.height - ps.height ≥ gh)
  | _, _ => false

/-- A world falsifying C7: game height 600, player of height 40, enemy with
lower edge 580 + 30 = 610, which crosses the playfield's bottom edge. -/
def c7World : World :=
  let w := (createEntity (World.init [])).2
  let w := addComponent 0 (.tag "gameState") w
  let w := addComponent 0 (.gameState ⟨false, false, 0, 0, 3⟩) w
  let w := (createEntity w).2
  let w := addComponent 1 (.player ⟨0, 400, true, 0, 0, false, false, false, 0, none⟩) w
  let w := addComponent 1 (.size ⟨40, 40⟩) w
  let w := (createEntity w).2
  let w := addComponent 2 (.enemy ⟨"basic", 10⟩) w
  let w := addComponent 2 (.position ⟨50, 580, 0⟩) w
  addComponent 2 (.size ⟨30, 30⟩) w

/-- Counterexample to C7: the enemy's lower edge (610) crosses the playfield
bottom (600), yet the phase leaves `isGameOver` false, because the code tests
`y + height - playerSize.height >= gameHeight` (610 - 40 = 570 < 600), not
`y + height >= gameHeight` as claimed. -/
theorem c7_counterexample_bottom_threshold_shifted :
    getGameState 0 c7World = some ⟨false, false, 0, 0, 3⟩ ∧
    ((580 : ℚ) + 30 > 600) ∧
    (checkEnemyReachedBottom 600 c7World).map (getGameState 0) =
      .ok (some ⟨false, false, 0, 0, 3⟩) := by
  refine ⟨by decide, by norm_num, ?_⟩
  with_unfolding_all rfl

/-- C7 as amended: given the game-state entity and the first player's size,
the enemy loop of the bottom-reached phase sets `isGameOver` to true if and
only if some enemy (with Position and Size) satisfies the code's shifted
condition `y + height - playerHeight ≥ gameHeight`; the phase throws nothing
here and changes nothing else about the flag. -/
theorem c7_amended_bottom_reached_condition (gh : ℚ) (gse : ℕ) (ps : SizeData)
    (enemies : List ℕ) (w : World) (g : GameStateData)
    (hg : getGameState gse w = some g) :
    (enemyBottomLoop gh (some ps) gse enemies w).map (getGameState gse) =
      .ok (some { g with
        isGameOver := g.isGameOver || enemies.any (bottomCross gh ps w) }) := by
  induction enemies with
  | nil =>
    simp only [enemyBottomLoop, Except.map, List.any_nil, Bool.or_false, hg]
  | cons e rest ih =>
    simp only [enemyBottomLoop, List.any_cons]
    rcases hpos : getPosition e w with _ | pos
    · simp only [bottomCross, hpos]
      simpa using ih
    · rcases hsize : getSize e w with _ | size
      · simp only [bottomCross, hpos, hsize]
        simpa using ih
      · simp only [bottomCross, hpos, hsize]
        by_cases hcross : pos.y + size.height - ps.height ≥ gh
        · simp only [if_pos hcross, hg, decide_eq_true hcross, Bool.true_or,
            Bool.or_true, Except.map]
          have hset := getComponent_updateComponent_self gse "GameState"
            (.gameState { g with isGameOver := true }) w (.gameState g)
            (getComponent_of_getGameState hg)
          unfold getGameState
          rw [hset]
        · simp only [if_neg hcross, decide_eq_false hcross, Bool.false_or]
          exact ih

/-- Witness for the amended C7 at a concrete input: with game height 600 and
player height 40, an enemy at y = 620 with height 30 (620 + 30 - 40 = 610 ≥
600) makes the loop set `isGameOver`. -/
theorem c7_amended_bottom_reached_condition_witness :
    getGameState 0
        (updateComponent 2 "Position" (.position ⟨50, 620, 0⟩) c7World) =
      some ⟨false, false, 0, 0, 3⟩ ∧
    (enemyBottomLoop 600 (some ⟨40, 40⟩) 0 [2]
        (updateComponent 2 "Position" (.position ⟨50, 620, 0⟩) c7World)).map
        (getGameState 0) =
      .ok (some { (⟨false, false, 0, 0, 3⟩ : GameStateData) with
        isGameOver := false || [2].any (bottomCross 600 ⟨40, 40⟩
          (updateComponent 2 "Position" (.position ⟨50, 620, 0⟩) c7World)) }) := by
  exact ⟨by decide, c7_amended_bottom_reached_condition 600 0 ⟨40, 40⟩ [2] _
    ⟨false, false, 0, 0, 3⟩ (by decide)⟩

/-! ## C6: lethality of contact with the player -/

theorem alistGet_alistSet_ne {α β : Type} [DecidableEq α]
    (l : List (α × β)) {k k' : α} (v : β) (h : k' ≠ k) :
    alistGet (alistSet l k v) k' = alistGet l k' := by
  induction l with
  | nil => simp [alistSet, alistGet, Ne.symm h]
  | cons a rest ih =>
    obtain ⟨a1, a2⟩ := a
    unfold alistSet
    by_cases hk : a1 = k
    · subst hk
      simp [alistGet, Ne.symm h, h]
    · simp [alistGet, hk, ih]

/-- Mutating one component leaves every other (entity, type) slot alone. -/
theorem getComponent_updateComponent_ne (e' e : ℕ) (t' t : String)
    (c : Component) (w : World) (h : ¬(e' = e ∧ t' = t)) :
    getComponent e' t' (updateComponent e t c w) = getComponent e' t' w := by
  unfold updateComponent
  rcases hm : alistGet w.components e with _ | m
  · rfl
  · rcases hh : alistHas m t with _ | _
    · simp only [hh, Bool.false_eq_true, if_false]
    · simp only [hh, if_true]
      unfold getComponent
      by_cases he : e' = e
      · subst he
        simp only [alistGet_alistSet_self, hm]
        have ht : t' ≠ t := fun ht => h ⟨rfl, ht⟩
        rw [alistGet_alistSet_ne _ _ ht]
      · rw [alistGet_alistSet_ne _ _ he]

/-- Unfolding of a successful typed Health lookup. -/
theorem getComponent_of_getHealth {e : ℕ} {w : World} {h : HealthData}
    (hh : getHealth e w = some h) :
    getComponent e "Health" w = some (.health h) := by
  unfold getHealth at hh
  rcases hc : getComponent e "Health" w with _ | c
  · rw [hc] at hh
    exact Option.noConfusion hh
  · rw [hc] at hh
    cases c <;> simp_all

/-- The per-powerup test of the player-contact phase: the powerup has
Position, Size, Powerup and Health components and overlaps the player. -/
def playerPowerupHit (pPos : PositionData) (pSize : SizeData) (w : World)
    (puE : ℕ) : Bool :=
  match getPosition puE w, getSize puE w, getPowerup puE w, getHealth puE w with
  | some puPos, some puSize, some _, some _ => isColliding pPos pSize puPos puSize
  | _, _, _, _ => false

/-- Writing the player's Health does not change the per-powerup test. -/
theorem playerPowerupHit_update_health (pPos : PositionData) (pSize : SizeData)
    (playerE : ℕ) (hv x : HealthData) (w : World)
    (hh : getHealth playerE w = some hv) (puE : ℕ) :
    playerPowerupHit pPos pSize
      (updateComponent playerE "Health" (.health x) w) puE =
      playerPowerupHit pPos pSize w puE := by
  unfold playerPowerupHit
  by_cases he : puE = playerE
  · subst he
    have h1 : getPosition puE (updateComponent puE "Health" (.health x) w) =
        getPosition puE w := by
      unfold getPosition
      rw [getComponent_updateComponent_ne _ _ _ _ _ _ (by simp)]
    have h2 : getSize puE (updateComponent puE "Health" (.health x) w) =
        getSize puE w := by
      unfold getSize
      rw [getComponent_updateComponent_ne _ _ _ _ _ _ (by simp)]
    have h3 : getPowerup puE (updateComponent puE "Health" (.health x) w) =
        getPowerup puE w := by
      unfold getPowerup
      rw [getComponent_updateComponent_ne _ _ _ _ _ _ (by simp)]
    have h4 : getHealth puE (updateComponent puE "Health" (.health x) w) =
        some x := by
      unfold getHealth
      rw [getComponent_updateComponent_self _ _ _ _ _
        (getComponent_of_getHealth hh)]
    rw [h1, h2, h3, h4, hh]
    cases getPosition puE w <;> cases getSize puE w <;>
      cases getPowerup puE w <;> rfl
  · have hne : ∀ t' : String,
        getComponent puE t' (updateComponent playerE "Health" (.health x) w) =
        getComponent puE t' w := fun t' =>
      getComponent_updateComponent_ne _ _ _ _ _ _ (fun hc => he hc.1)
    unfold getPosition getSize getPowerup getHealth
    rw [hne "Position", hne "Size", hne "Powerup", hne "Health"]

/-- The powerup loop of the player-contact phase zeroes the player's Health
exactly when some powerup passes the per-powerup overlap test, and leaves it
untouched otherwise (given the live player-health object `ph` and a present
Health component). -/
theorem playerPowerupLoop_health (playerE : ℕ) (pPos : PositionData)
    (pSize : SizeData) (ph : HealthData) (powerups : List ℕ) (w : World)
    (hh : ∃ hv : HealthData, getHealth playerE w = some hv) :
    (playerPowerupLoop playerE pPos pSize (some ph) powerups w).map
        (getHealth playerE) =
      .ok (if powerups.any (playerPowerupHit pPos pSize w) then
        some { ph with currentHealth := 0 } else getHealth playerE w) := by
  induction powerups generalizing w with
  | nil => simp [playerPowerupLoop, Except.map]
  | cons pu rest ih =>
    obtain ⟨hv, hhv⟩ := hh
    simp only [playerPowerupLoop, List.any_cons]
    rcases h1 : getPosition pu w with _ | puPos
    · simp only [playerPowerupHit, h1, Bool.false_or]
      exact ih w ⟨hv, hhv⟩
    · rcases h2 : getSize pu w with _ | puSize
      · simp only [playerPowerupHit, h1, h2, Bool.false_or]
        exact ih w ⟨hv, hhv⟩
      · rcases h3 : getPowerup pu w with _ | puPu
        · simp only [playerPowerupHit, h1, h2, h3, Bool.false_or]
          exact ih w ⟨hv, hhv⟩
        · rcases h4 : getHealth pu w with _ | puH
          · simp only [playerPowerupHit, h1, h2, h3, h4, Bool.false_or]
            exact ih w ⟨hv, hhv⟩
          · simp only [playerPowerupHit, h1, h2, h3, h4]
            by_cases hcol : isColliding pPos pSize puPos puSize = true
            · simp only [hcol, if_true, Bool.true_or]
              have hset : getHealth playerE
                  (updateComponent playerE "Health"
                    (.health { ph with currentHealth := 0 }) w) =
                  some { ph with currentHealth := 0 } := by
                unfold getHealth
                rw [getComponent_updateComponent_self _ _ _ _ _
                  (getComponent_of_getHealth hhv)]
              rw [ih _ ⟨_, hset⟩]
              have hpredf : playerPowerupHit pPos pSize
                  (updateComponent playerE "Health"
                    (.health { ph with currentHealth := 0 }) w) =
                  playerPowerupHit pPos pSize w :=
                funext (playerPowerupHit_update_health pPos pSize playerE hv
                  { ph with currentHealth := 0 } w hhv)
              rw [hpredf, hset]
              simp [ite_self]
            · simp only [hcol, Bool.false_eq_true, if_false, Bool.false_or]
              exact ih w ⟨hv, hhv⟩

/-- A world where the (first) player overlaps an enemy: player at (100,500)
50x50 with health 100, enemy at (120,510) 30x30; no powerups anywhere. -/
def c6World : World :=
  { entities := [0, 1],
    components :=
      [(0, [("Player", .player ⟨0, 400, true, 0, 0, false, false, false, 0, none⟩),
            ("Position", .position ⟨100, 500, 0⟩),
            ("Size", .size ⟨50, 50⟩),
            ("Collision", .collision ⟨true, 0, "player"⟩),
            ("Health", .health ⟨100, 100⟩)]),
       (1, [("Enemy", .enemy ⟨"basic", 10⟩),
            ("Position", .position ⟨120, 510, 0⟩),
            ("Size", .size ⟨30, 30⟩),
            ("Collision", .collision ⟨true, 0, "enemy"⟩),
            ("Health", .health ⟨3, 3⟩)])],
    systems := ["PowerupSystem"], entityComponentCache := [],
    cacheValid := false, nextId := 2 }

/-- Counterexample to C6: the player overlaps an enemy, yet a full Collision
update leaves the player's health at 100 - no phase of the collision system
handles player-enemy contact at all; only player-powerup contact is lethal. -/
theorem c6_counterexample_player_enemy_contact_not_lethal :
    isColliding ⟨100, 500, 0⟩ ⟨50, 50⟩ ⟨120, 510, 0⟩ ⟨30, 30⟩ = true ∧
    (collisionUpdate 800 600 c6World).map (getHealth 0) =
      .ok (some ⟨100, 100⟩) := by
  constructor
  · with_unfolding_all decide
  · with_unfolding_all rfl

/-- A world where the (first) player overlaps a powerup instead. -/
def c6PowerupWorld : World :=
  { entities := [0, 1],
    components :=
      [(0, [("Player", .player ⟨0, 400, true, 0, 0, false, false, false, 0, none⟩),
            ("Position", .position ⟨100, 500, 0⟩),
            ("Size", .size ⟨50, 50⟩),
            ("Collision", .collision ⟨true, 0, "player"⟩),
            ("Health", .health ⟨100, 100⟩)]),
       (1, [("Powerup", .powerup ⟨"rapidFire", 1⟩),
            ("Position", .position ⟨120, 510, 0⟩),
            ("Size", .size ⟨30, 30⟩),
            ("Collision", .collision ⟨true, 0, "powerup"⟩),
            ("Health", .health ⟨1, 1⟩)])],
    systems := ["PowerupSystem"], entityComponentCache := [],
    cacheValid := false, nextId := 2 }

/-- C6 as amended: in the player-contact phase only player-powerup overlap is
lethal, and only for the first player of the player query: the powerup loop
zeroes that player's health exactly when some powerup (with Position, Size,
Powerup and Health components) overlaps it; player-enemy overlap is not
handled by any collision phase (see the counterexample). A full collision
update on a player overlapping a powerup ends with the player's health 0. -/
theorem c6_amended_only_powerup_contact_lethal :
    (∀ (playerE : ℕ) (pPos : PositionData) (pSize : SizeData)
      (ph : HealthData) (powerups : List ℕ) (w : World),
      (∃ hv : HealthData, getHealth playerE w = some hv) →
      (playerPowerupLoop playerE pPos pSize (some ph) powerups w).map
          (getHealth playerE) =
        .ok (if powerups.any (playerPowerupHit pPos pSize w) then
          some { ph with currentHealth := 0 } else getHealth playerE w)) ∧
    (collisionUpdate 800 600 c6PowerupWorld).map (getHealth 0) =
      .ok (some ⟨0, 100⟩) := by
  constructor
  · intro playerE pPos pSize ph powerups w hh
    exact playerPowerupLoop_health playerE pPos pSize ph powerups w hh
  · with_unfolding_all rfl

/-- Witness for the amended C6 at a concrete input: the loop on
`c6PowerupWorld` (player health object 100/100, the one powerup overlapping)
zeroes the player's health. -/
theorem c6_amended_only_powerup_contact_lethal_witness :
    (playerPowerupLoop 0 ⟨100, 500, 0⟩ ⟨50, 50⟩ (some ⟨100, 100⟩) [1]
        c6PowerupWorld).map (getHealth 0) =
      .ok (if [1].any (playerPowerupHit ⟨100, 500, 0⟩ ⟨50, 50⟩ c6PowerupWorld)
        then some { (⟨100, 100⟩ : HealthData) with currentHealth := 0 }
        else getHealth 0 c6PowerupWorld) :=
  c6_amended_only_powerup_contact_lethal.1 0 ⟨100, 500, 0⟩ ⟨50, 50⟩
    ⟨100, 100⟩ [1] c6PowerupWorld ⟨⟨100, 100⟩, by decide⟩

/-! ## C3: which code deletes entities

Entity-preservation lemmas: none of the world primitives except
`removeEntity` (and `createEntity`, which appends) changes the entity list,
and no system pass except Cleanup and the multiplier phase calls
`removeEntity`. -/

theorem entities_updateComponent (e : ℕ) (t : String) (c : Component)
    (w : World) : (updateComponent e t c w).entities = w.entities := by
  unfold updateComponent
  split
  · split <;> rfl
  · rfl

theorem entities_addComponent (e : ℕ) (c : Component) (w : World) :
    (addComponent e c w).entities = w.entities := by
  unfold addComponent
  split <;> rfl

theorem entities_removeComponent (e : ℕ) (t : String) (w : World) :
    (removeComponent e t w).entities = w.entities := by
  unfold removeComponent
  split <;> rfl

theorem entities_getEntitiesWith (types : List String) (w : World) :
    ((getEntitiesWith types w).2).entities = w.entities := by
  unfold getEntitiesWith
  split <;> simp only [] <;> split <;> rfl

theorem entities_foldl {α : Type} (f : World → α → World)
    (hf : ∀ w a, (f w a).entities = w.entities) (l : List α) (w : World) :
    (l.foldl f w).entities = w.entities := by
  induction l generalizing w with
  | nil => rfl
  | cons a rest ih => rw [List.foldl_cons, ih (f w a), hf w a]

theorem entities_foldlM (f : World → ℕ → Except String World)
    (hf : ∀ w e w', f w e = .ok w' → w'.entities = w.entities)
    (l : List ℕ) (w w' : World) (h : l.foldlM f w = .ok w') :
    w'.entities = w.entities := by
  induction l generalizing w with
  | nil =>
    cases h
    rfl
  | cons a rest ih =>
    rw [List.foldlM_cons] at h
    rcases hf1 : f w a with _ | w1
    · rw [hf1] at h
      exact Except.noConfusion h
    · rw [hf1] at h
      exact (ih w1 h).trans (hf w a w1 hf1)

theorem entities_applyRapidFirePowerup (e : ℕ) (dur mult : ℚ) (w : World) :
    (applyRapidFirePowerup e dur mult w).entities = w.entities := by
  unfold applyRapidFirePowerup
  split
  · split
    · simp only [entities_addComponent, entities_removeComponent]
    · rfl
  · simp only [entities_addComponent]

theorem entities_processPowerup (playerE powerupE : ℕ) (w : World) :
    (processPowerup playerE powerupE w).entities = w.entities := by
  unfold processPowerup
  split
  · rfl
  · split
    · simp only [entities_applyRapidFirePowerup]
    · split
      · simp only [entities_applyRapidFirePowerup]
      · split
        · split
          · simp only [entities_removeComponent]
          · rfl
        · rfl

theorem entities_movementStep (dt : ℚ) (w : World) (e : ℕ) :
    (movementStep dt w e).entities = w.entities := by
  unfold movementStep
  split
  · simp only [entities_updateComponent]
  all_goals rfl

theorem entities_movementUpdate (dt : ℚ) (w : World) :
    (movementUpdate dt w).entities = w.entities := by
  unfold movementUpdate
  simp only []
  rw [entities_foldl (movementStep dt) (entities_movementStep dt),
    entities_getEntitiesWith]

theorem entities_updateCooldownModifier (e : ℕ) (dt : ℚ) (w : World) :
    (updateCooldownModifier e dt w).entities = w.entities := by
  unfold updateCooldownModifier
  split
  · rfl
  · split
    · simp only []
      split
      · simp only [entities_removeComponent, entities_updateComponent]
      · simp only [entities_updateComponent]
    · rfl

theorem entities_powerupUpdate (dt : ℚ) (w : World) :
    (powerupUpdate dt w).entities = w.entities := by
  unfold powerupUpdate
  simp only []
  rw [entities_foldl (fun w e => updateCooldownModifier e dt w)
    (fun w e => entities_updateCooldownModifier e dt w),
    entities_getEntitiesWith]

theorem entities_bulletEnemyLoop (bulletE : ℕ) (bc : Option BulletData)
    (bPos : PositionData) (bSize : SizeData) (enemies : List ℕ) (w : World)
    (res : World × Option BulletData)
    (h : bulletEnemyLoop bulletE bc bPos bSize enemies w = .ok res) :
    res.1.entities = w.entities := by
  induction enemies generalizing w with
  | nil =>
    unfold bulletEnemyLoop at h
    cases h
    rfl
  | cons e rest ih =>
    unfold bulletEnemyLoop at h
    split at h
    · split at h
      · split at h
        · exact Except.noConfusion h
        · simp only [] at h
          split at h
          · split at h
            · split at h
              · cases h
                simp only [entities_updateComponent, entities_getEntitiesWith]
              · cases h
                simp only [entities_updateComponent, entities_getEntitiesWith]
            all_goals
              cases h
              simp only [entities_updateComponent, entities_getEntitiesWith]
          · cases h
            simp only [entities_updateComponent]
      · exact ih _ h
    all_goals exact ih _ h

theorem entities_bulletPowerupLoop (bulletE : ℕ) (b : BulletData)
    (bPos : PositionData) (bSize : SizeData) (powerups : List ℕ) (w : World) :
    (bulletPowerupLoop bulletE b bPos bSize powerups w).entities =
      w.entities := by
  induction powerups generalizing w with
  | nil => rfl
  | cons pu rest ih =>
    unfold bulletPowerupLoop
    split
    · split
      · simp only []
        rw [entities_updateComponent]
        split
        · split
          · rw [entities_foldl (fun w p => processPowerup p pu w)
              (fun w p => entities_processPowerup p pu w),
              entities_getEntitiesWith, entities_updateComponent]
          · rw [entities_updateComponent]
        · rw [entities_updateComponent]
      · exact ih w
    all_goals exact ih w

theorem entities_processBullet (enemies powerups : List ℕ) (w : World)
    (bulletE : ℕ) (w' : World)
    (h : processBullet enemies powerups w bulletE = .ok w') :
    w'.entities = w.entities := by
  unfold processBullet at h
  simp only [] at h
  split at h
  · cases h
    rfl
  · split at h
    · split at h
      · exact Except.noConfusion h
      · split at h
        · exact Except.noConfusion h
        · cases h
          split
          · exact entities_bulletEnemyLoop _ _ _ _ _ _ _ (by assumption)
          · rw [entities_bulletPowerupLoop]
            exact entities_bulletEnemyLoop _ _ _ _ _ _ _ (by assumption)
    all_goals
      cases h
      rfl

theorem entities_checkBulletCollisions (w : World) (w' : World)
    (h : checkBulletCollisions w = .ok w') : w'.entities = w.entities := by
  unfold checkBulletCollisions at h
  simp only [] at h
  have := entities_foldlM _
    (fun wa e wb hh => entities_processBullet _ _ wa e wb hh) _ _ _ h
  rw [this]
  simp only [entities_getEntitiesWith]

theorem playerPowerupLoop_cons (playerE : ℕ) (pPos : PositionData)
    (pSize : SizeData) (pHealth : Option HealthData) (pu : ℕ)
    (rest : List ℕ) (w : World) :
    playerPowerupLoop playerE pPos pSize pHealth (pu :: rest) w =
      (match getPosition pu w, getSize pu w, getPowerup pu w,
          getHealth pu w with
        | some puPos, some puSize, some _, some _ =>
          if isColliding pPos pSize puPos puSize then
            match pHealth with
            | none => .error typeError
            | some ph =>
              playerPowerupLoop playerE pPos pSize pHealth rest
                (updateComponent playerE "Health"
                  (.health { ph with currentHealth := 0 }) w)
          else playerPowerupLoop playerE pPos pSize pHealth rest w
        | _, _, _, _ => playerPowerupLoop playerE pPos pSize pHealth rest w) :=
  rfl

theorem entities_playerPowerupLoop (playerE : ℕ) (pPos : PositionData)
    (pSize : SizeData) (pHealth : Option HealthData) (powerups : List ℕ)
    (w : World) (w' : World)
    (h : playerPowerupLoop playerE pPos pSize pHealth powerups w = .ok w') :
    w'.entities = w.entities := by
  induction powerups generalizing w with
  | nil =>
    cases h
    rfl
  | cons pu rest ih =>
    rw [playerPowerupLoop_cons] at h
    split at h
    · split at h
      · split at h
        · exact Except.noConfusion h
        · exact (ih _ h).trans (entities_updateComponent _ _ _ _)
      · exact ih _ h
    all_goals exact ih _ h

theorem entities_checkPlayerPowerupCollisions (w : World) (w' : World)
    (h : checkPlayerPowerupCollisions w = .ok w') :
    w'.entities = w.entities := by
  unfold checkPlayerPowerupCollisions at h
  try simp only [] at h
  split at h
  · cases h
    simp only [entities_getEntitiesWith]
  · split at h
    · cases h
      simp only [entities_getEntitiesWith]
    · split at h
      · have := entities_playerPowerupLoop _ _ _ _ _ _ _ h
        rw [this]
        simp only [entities_getEntitiesWith]
      all_goals
        cases h
        simp only [entities_getEntitiesWith]

theorem entities_offscreenStep (gw gh : ℚ) (w : World) (e : ℕ) :
    (offscreenStep gw gh w e).entities = w.entities := by
  unfold offscreenStep
  repeat' split
  all_goals try simp [entities_updateComponent]
  all_goals repeat' split
  all_goals simp [entities_updateComponent]

theorem entities_checkOffscreenEntities (gw gh : ℚ) (w : World) :
    (checkOffscreenEntities gw gh w).entities = w.entities := by
  unfold checkOffscreenEntities
  simp only []
  rw [entities_foldl (offscreenStep gw gh) (entities_offscreenStep gw gh),
    entities_getEntitiesWith]

theorem entities_enemyBottomLoop (gh : ℚ) (playerSize : Option SizeData)
    (gse : ℕ) (enemies : List ℕ) (w : World) (w' : World)
    (h : enemyBottomLoop gh playerSize gse enemies w = .ok w') :
    w'.entities = w.entities := by
  induction enemies generalizing w with
  | nil =>
    cases h
    rfl
  | cons e rest ih =>
    unfold enemyBottomLoop at h
    split at h
    · split at h
      · exact Except.noConfusion h
      · split at h
        · split at h
          · cases h
            simp only [entities_updateComponent]
          · cases h
            rfl
        · exact ih _ h
    all_goals exact ih _ h

theorem entities_checkEnemyReachedBottom (gh : ℚ) (w : World) (w' : World)
    (h : checkEnemyReachedBottom gh w = .ok w') :
    w'.entities = w.entities := by
  unfold checkEnemyReachedBottom at h
  simp only [] at h
  split at h
  · cases h
    simp only [entities_getEntitiesWith]
  · split at h
    · exact Except.noConfusion h
    · have := entities_enemyBottomLoop _ _ _ _ _ _ h
      rw [this]
      simp only [entities_getEntitiesWith]

theorem mem_entities_spawnEnemy (cfg : SpawnConfig) (w : World) (e : ℕ)
    (he : e ∈ w.entities) : e ∈ (spawnEnemy cfg w).entities := by
  unfold spawnEnemy
  simp only [entities_addComponent]
  exact List.mem_append_left _ he

theorem mem_entities_spawnPowerup (cfg : SpawnConfig) (randIndex : ℕ)
    (w : World) (e : ℕ) (he : e ∈ w.entities) :
    e ∈ (spawnPowerup cfg randIndex w).entities := by
  unfold spawnPowerup
  simp only [entities_addComponent]
  exact List.mem_append_left _ he

theorem mem_entities_spawnUpdate (cfg : SpawnConfig) (randIndex : ℕ) (dt : ℚ)
    (st : SpawnState) (w : World) (e : ℕ) (he : e ∈ w.entities) :
    e ∈ (spawnUpdate cfg randIndex dt st w).2.entities := by
  have he1 : e ∈ ((getEntitiesWith ["GameState"] w).2).entities := by
    rw [entities_getEntitiesWith]
    exact he
  unfold spawnUpdate
  simp only []
  split
  · exact he1
  · split
    · exact he1
    · split
      · exact he1
      · split <;> split <;> simp only []
        · exact mem_entities_spawnPowerup _ _ _ _
            (mem_entities_spawnEnemy _ _ _ he1)
        · exact mem_entities_spawnEnemy _ _ _ he1
        · exact mem_entities_spawnPowerup _ _ _ _ he1
        · exact he1

/-- A multiplier-zone world: entity 0 is a zone (Multiplier 5 at (100,200),
400x1), entity 1 a collidable at (120,190), 30x30, overlapping it. -/
def c3World : World :=
  { entities := [0, 1],
    components :=
      [(0, [("Multiplier", .multiplier ⟨5⟩),
            ("Position", .position ⟨100, 200, 0⟩),
            ("Size", .size ⟨400, 1⟩)]),
       (1, [("Collision", .collision ⟨true, 0, "enemy"⟩),
            ("Position", .position ⟨120, 190, 0⟩),
            ("Size", .size ⟨30, 30⟩),
            ("Health", .health ⟨3, 3⟩)])],
    systems := ["PowerupSystem"], entityComponentCache := [],
    cacheValid := false, nextId := 2 }

/-- Counterexample to C3: the multiplier phase of the Collision system itself
removes entity 1 from the store (and creates the five clones 2..6) - entity
deletion is not exclusive to the Cleanup system. -/
theorem c3_counterexample_multiplier_phase_removes_entities :
    1 ∈ c3World.entities ∧
    (checkCollisionsWithMultiplier c3World).entities = [0, 2, 3, 4, 5, 6] ∧
    1 ∉ (checkCollisionsWithMultiplier c3World).entities := by
  refine ⟨by decide, ?_, ?_⟩ <;> with_unfolding_all decide

/-- C3 as amended: entities are deleted only by the Cleanup system and by the
multiplier phase of the Collision system (which removes the original entity
it clones); Movement, Powerup, Spawn and the bullet, player-contact,
off-screen and bottom-reached collision phases never remove an entity -
they only mark deaths by writing health or hit flags. -/
theorem c3_amended_only_cleanup_and_multiplier_remove :
    (∀ (dt : ℚ) (w : World), (movementUpdate dt w).entities = w.entities) ∧
    (∀ (dt : ℚ) (w : World), (powerupUpdate dt w).entities = w.entities) ∧
    (∀ (w w' : World), checkBulletCollisions w = .ok w' →
      w'.entities = w.entities) ∧
    (∀ (w w' : World), checkPlayerPowerupCollisions w = .ok w' →
      w'.entities = w.entities) ∧
    (∀ (gw gh : ℚ) (w : World),
      (checkOffscreenEntities gw gh w).entities = w.entities) ∧
    (∀ (gh : ℚ) (w w' : World), checkEnemyReachedBottom gh w = .ok w' →
      w'.entities = w.entities) ∧
    (∀ (cfg : SpawnConfig) (randIndex : ℕ) (dt : ℚ) (st : SpawnState)
      (w : World) (e : ℕ), e ∈ w.entities →
      e ∈ (spawnUpdate cfg randIndex dt st w).2.entities) :=
  ⟨entities_movementUpdate, entities_powerupUpdate,
   entities_checkBulletCollisions, entities_checkPlayerPowerupCollisions,
   entities_checkOffscreenEntities, entities_checkEnemyReachedBottom,
   mem_entities_spawnUpdate⟩

/-- Witness for the amended C3 at concrete inputs: the bullet and
player-contact phases on `c6World` keep its entity list, and Movement keeps
the entity list of `pausedWorld`. -/
theorem c3_amended_only_cleanup_and_multiplier_remove_witness :
    (movementUpdate 1 pausedWorld).entities = pausedWorld.entities ∧
    (checkBulletCollisions c6World).map World.entities =
      .ok c6World.entities := by
  refine ⟨c3_amended_only_cleanup_and_multiplier_remove.1 1 pausedWorld, ?_⟩
  obtain ⟨wr, hret⟩ : ∃ wr, checkBulletCollisions c6World = .ok wr := by
    with_unfolding_all exact ⟨_, rfl⟩
  rw [hret]
  simp [Except.map,
    c3_amended_only_cleanup_and_multiplier_remove.2.2.1 c6World wr hret]

/-- C9 is refuted by the code: `checkEnemyReachedBottom` dereferences the
first entity of the `("Player", "Size")` query without checking that one
exists, so with zero players it throws a TypeError instead of silently
skipping (the spec requires "skip this entity silently"). -/
theorem c9_checkEnemyReachedBottom_throws_without_player :
    checkEnemyReachedBottom 600 noPlayerWorld = .error typeError := rfl

end RFAG

namespace RFAG

theorem cacheValid_updateComponent (e : ℕ) (t : String) (c : Component)
    (w : World) : (updateComponent e t c w).cacheValid = w.cacheValid := by
  unfold updateComponent
  split
  · split <;> rfl
  · rfl

theorem alistHas_alistSet_of_has {α β : Type} [DecidableEq α]
    {l : List (α × β)} {k : α} (h : alistHas l k = true) (v : β) (k' : α) :
    alistHas (alistSet l k v) k' = alistHas l k' := by
  induction l with
  | nil => exact absurd h (by simp [alistHas])
  | cons a rest ih =>
    obtain ⟨a1, a2⟩ := a
    unfold alistHas at h
    unfold alistSet
    by_cases hk : a1 = k
    · subst hk
      simp [alistSet, alistHas]
    · rw [if_neg hk] at h
      simp only [if_neg hk]
      unfold alistHas
      by_cases hk' : a1 = k'
      · simp [hk']
      · simp only [if_neg hk']
        exact ih h

theorem matchesTypes_updateComponent (types : List String) (e : ℕ)
    (t : String) (c : Component) (w : World) (x : ℕ) :
    matchesTypes types (updateComponent e t c w) x = matchesTypes types w x := by
  rcases hm : alistGet w.components e with _ | m
  · unfold updateComponent
    rw [hm]
  · unfold updateComponent
    rw [hm]
    by_cases hhas : alistHas m t = true
    · simp only [hhas, if_true]
      unfold matchesTypes
      by_cases hx : x = e
      · subst hx
        simp only [alistGet_alistSet_self, hm]
        have hcong : ∀ ty, alistHas (alistSet m t c) ty = alistHas m ty :=
          fun ty => alistHas_alistSet_of_has hhas c ty
        simp only [hcong]
      · simp only [alistGet_alistSet_ne _ _ hx]
    · simp only [if_neg hhas]

theorem naiveScan_updateComponent (types : List String) (e : ℕ) (t : String)
    (c : Component) (w : World) :
    naiveScan types (updateComponent e t c w) = naiveScan types w := by
  unfold naiveScan
  rw [entities_updateComponent]
  exact List.filter_congr fun x _ => matchesTypes_updateComponent types e t c w x

end RFAG

namespace RFAG

/-- The per-enemy test of the bullet phase: the enemy has Position, Size and
Health components and overlaps the bullet. -/
def bulletEnemyHit (bPos : PositionData) (bSize : SizeData) (w : World)
    (e : ℕ) : Bool :=
  match getPosition e w, getSize e w, getHealth e w with
  | some ePos, some eSize, some _ => isColliding bPos bSize ePos eSize
  | _, _, _ => false

theorem bulletEnemyLoop_first_hit (bulletE : ℕ) (b : BulletData)
    (bPos : PositionData) (bSize : SizeData) (es₁ es₂ : List ℕ) (e : ℕ)
    (w : World) (hcv : w.cacheValid = false)
    (hmiss : ∀ x ∈ es₁, bulletEnemyHit bPos bSize w x = false)
    (ePos : PositionData) (eSize : SizeData) (eh : HealthData)
    (hp : getPosition e w = some ePos) (hs : getSize e w = some eSize)
    (hh : getHealth e w = some eh)
    (hcol : isColliding bPos bSize ePos eSize = true)
    (hbul : getBullet bulletE w = some b)
    (ed : EnemyData) (hed : getEnemy e w = some ed)
    (p : ℕ) (prest : List ℕ) (hplayers : naiveScan ["Player"] w = p :: prest)
    (pc : PlayerData) (hpc : getPlayer p w = some pc) :
    ∃ w', bulletEnemyLoop bulletE (some b) bPos bSize (es₁ ++ e :: es₂) w =
        .ok (w', some { b with hit := true }) ∧
      getHealth e w' =
        some { eh with currentHealth := eh.currentHealth - b.damage } ∧
      getBullet bulletE w' = some { b with hit := true } ∧
      (∀ x, x ≠ e → getHealth x w' = getHealth x w) ∧
      (eh.currentHealth - b.damage ≤ 0 →
        getPlayer p w' =
          some { pc with score := pc.score.map (· + ed.pointValue) }) ∧
      (¬(eh.currentHealth - b.damage ≤ 0) →
        ∀ x, getPlayer x w' = getPlayer x w) := by
  induction es₁ with
  | cons x rest ih =>
    have hx : bulletEnemyHit bPos bSize w x = false := hmiss x (by simp)
    have hrest : ∀ y ∈ rest, bulletEnemyHit bPos bSize w y = false :=
      fun y hy => hmiss y (by simp [hy])
    obtain ⟨w', hw⟩ := ih hrest
    refine ⟨w', ?_, hw.2.1, hw.2.2.1, hw.2.2.2.1, hw.2.2.2.2.1, hw.2.2.2.2.2⟩
    have hstep : bulletEnemyLoop bulletE (some b) bPos bSize
        (x :: (rest ++ e :: es₂)) w =
        bulletEnemyLoop bulletE (some b) bPos bSize (rest ++ e :: es₂) w := by
      unfold bulletEnemyHit at hx
      rcases h1 : getPosition x w with _ | xp
      · simp only [bulletEnemyLoop, h1]
      · rcases h2 : getSize x w with _ | xs
        · simp only [bulletEnemyLoop, h1, h2]
        · rcases h3 : getHealth x w with _ | xh
          · simp only [bulletEnemyLoop, h1, h2, h3]
          · simp only [h1, h2, h3] at hx
            simp only [bulletEnemyLoop, h1, h2, h3, hx, Bool.false_eq_true,
              if_false]
    rw [List.cons_append, hstep]
    exact hw.1
  | nil =>
    have hb' : getComponent bulletE "Bullet" w = some (.bullet b) := by
      unfold getBullet at hbul
      rcases hc : getComponent bulletE "Bullet" w with _ | c
      · rw [hc] at hbul
        exact Option.noConfusion hbul
      · rw [hc] at hbul
        cases c <;> simp_all
    have hh' : getComponent e "Health" w = some (.health eh) :=
      getComponent_of_getHealth hh
    set eh2 : HealthData :=
      { eh with currentHealth := eh.currentHealth - b.damage } with heh2
    set w1 : World := updateComponent e "Health" (.health eh2) w with hw1
    set b2 : BulletData := { b with hit := true } with hb2
    set w2 : World := updateComponent bulletE "Bullet" (.bullet b2) w1 with hw2
    have hh1 : getComponent e "Health" w1 = some (.health eh2) :=
      getComponent_updateComponent_self _ _ _ _ _ hh'
    have hbul1 : getComponent bulletE "Bullet" w1 = some (.bullet b) := by
      rw [hw1, getComponent_updateComponent_ne _ _ _ _ _ _ (by simp)]
      exact hb'
    have hbul2 : getComponent bulletE "Bullet" w2 = some (.bullet b2) :=
      getComponent_updateComponent_self _ _ _ _ _ hbul1
    have hh2 : getComponent e "Health" w2 = some (.health eh2) := by
      rw [hw2, getComponent_updateComponent_ne _ _ _ _ _ _ (by simp)]
      exact hh1
    have hhx12 : ∀ x, x ≠ e → getHealth x w2 = getHealth x w := by
      intro x hx
      unfold getHealth
      rw [hw2, getComponent_updateComponent_ne _ _ _ _ _ _ (by simp), hw1,
        getComponent_updateComponent_ne _ _ _ _ _ _ (fun hc => hx hc.1)]
    have hplayer12 : ∀ x, getPlayer x w2 = getPlayer x w := by
      intro x
      unfold getPlayer
      rw [hw2, getComponent_updateComponent_ne _ _ _ _ _ _ (by simp), hw1,
        getComponent_updateComponent_ne _ _ _ _ _ _ (by simp)]
    have hcv2 : w2.cacheValid = false := by
      rw [hw2, cacheValid_updateComponent, hw1, cacheValid_updateComponent]
      exact hcv
    have hgather : bulletEnemyLoop bulletE (some b) bPos bSize
        ([] ++ e :: es₂) w =
        (if eh2.currentHealth ≤ 0 then
          match getEnemy e w2, (getEntitiesWith ["Player"] w2).1 with
          | some ed', pE :: _ =>
            match getPlayer pE (getEntitiesWith ["Player"] w2).2 with
            | some pc' =>
              .ok (updateComponent pE "Player"
                (.player { pc' with
                  score := pc'.score.map (· + ed'.pointValue) })
                (getEntitiesWith ["Player"] w2).2, some b2)
            | none => .ok ((getEntitiesWith ["Player"] w2).2, some b2)
          | _, _ => .ok ((getEntitiesWith ["Player"] w2).2, some b2)
        else .ok (w2, some b2)) := by
      rw [List.nil_append]
      simp only [bulletEnemyLoop, hp, hs, hh, hcol, if_true]
    have hscan2 : (getEntitiesWith ["Player"] w2).1 = p :: prest := by
      rw [getEntitiesWith_of_cacheValid_false _ _ hcv2]
      show naiveScan ["Player"] w2 = p :: prest
      rw [hw2, naiveScan_updateComponent, hw1, naiveScan_updateComponent,
        hplayers]
    have hed2 : getEnemy e w2 = some ed := by
      unfold getEnemy
      rw [hw2, getComponent_updateComponent_ne _ _ _ _ _ _ (by simp), hw1,
        getComponent_updateComponent_ne _ _ _ _ _ _ (by simp)]
      unfold getEnemy at hed
      exact hed
    by_cases hkill : eh.currentHealth - b.damage ≤ 0
    · have hkill2 : eh2.currentHealth ≤ 0 := hkill
      set w3 : World := (getEntitiesWith ["Player"] w2).2 with hw3
      have hw3c : getPlayer p w3 = getPlayer p w2 := by
        rw [hw3, getEntitiesWith_of_cacheValid_false _ _ hcv2]
        rfl
      have hpc2 : getPlayer p w3 = some pc := by
        rw [hw3c, hplayer12]
        exact hpc
      have hpc2' : getComponent p "Player" w3 = some (.player pc) := by
        unfold getPlayer at hpc2
        rcases hc : getComponent p "Player" w3 with _ | c
        · rw [hc] at hpc2
          exact Option.noConfusion hpc2
        · rw [hc] at hpc2
          cases c <;> simp_all
      refine ⟨updateComponent p "Player"
        (.player { pc with score := pc.score.map (· + ed.pointValue) }) w3,
        ?_, ?_, ?_, ?_, ?_, ?_⟩
      · simp only [hgather, if_pos hkill2, hed2, hscan2, ← hw3, hpc2]
      · unfold getHealth
        rw [getComponent_updateComponent_ne _ _ _ _ _ _ (by simp)]
        have : getComponent e "Health" w3 = getComponent e "Health" w2 := by
          rw [hw3, getEntitiesWith_of_cacheValid_false _ _ hcv2]
          rfl
        rw [this, hh2]
      · unfold getBullet
        rw [getComponent_updateComponent_ne _ _ _ _ _ _ (by simp)]
        have : getComponent bulletE "Bullet" w3 =
            getComponent bulletE "Bullet" w2 := by
          rw [hw3, getEntitiesWith_of_cacheValid_false _ _ hcv2]
          rfl
        rw [this, hbul2]
      · intro x hx
        unfold getHealth
        rw [getComponent_updateComponent_ne _ _ _ _ _ _ (by simp)]
        have : getComponent x "Health" w3 = getComponent x "Health" w2 := by
          rw [hw3, getEntitiesWith_of_cacheValid_false _ _ hcv2]
          rfl
        rw [this]
        have := hhx12 x hx
        unfold getHealth at this
        exact this
      · intro _
        unfold getPlayer
        rw [getComponent_updateComponent_self _ _ _ _ _ hpc2']
      · intro hcon
        exact absurd hkill hcon
    · have hkill2 : ¬eh2.currentHealth ≤ 0 := hkill
      refine ⟨w2, ?_, ?_, ?_, hhx12, ?_, fun _ => hplayer12⟩
      · rw [hgather, if_neg hkill2]
      · unfold getHealth
        rw [hh2]
      · unfold getBullet
        rw [hbul2]
      · intro hcon
        exact absurd hcon hkill

end RFAG

namespace RFAG

theorem bulletEnemyLoop_stops_after_hit (bulletE : ℕ) (bc : Option BulletData)
    (bPos : PositionData) (bSize : SizeData) (es₁ : List ℕ) (e : ℕ) (w : World)
    (hmiss : ∀ x ∈ es₁, bulletEnemyHit bPos bSize w x = false)
    (ePos : PositionData) (eSize : SizeData) (eh : HealthData)
    (hp : getPosition e w = some ePos) (hs : getSize e w = some eSize)
    (hh : getHealth e w = some eh)
    (hcol : isColliding bPos bSize ePos eSize = true) (es₂ es₂' : List ℕ) :
    bulletEnemyLoop bulletE bc bPos bSize (es₁ ++ e :: es₂) w =
    bulletEnemyLoop bulletE bc bPos bSize (es₁ ++ e :: es₂') w := by
  induction es₁ with
  | nil =>
    simp only [List.nil_append, bulletEnemyLoop, hp, hs, hh, hcol, if_true]
  | cons x rest ih =>
    have hx : bulletEnemyHit bPos bSize w x = false := hmiss x (by simp)
    have hstep : ∀ tail, bulletEnemyLoop bulletE bc bPos bSize (x :: tail) w =
        bulletEnemyLoop bulletE bc bPos bSize tail w := by
      intro tail
      unfold bulletEnemyHit at hx
      rcases h1 : getPosition x w with _ | xp
      · simp only [bulletEnemyLoop, h1]
      · rcases h2 : getSize x w with _ | xs
        · simp only [bulletEnemyLoop, h1, h2]
        · rcases h3 : getHealth x w with _ | xh
          · simp only [bulletEnemyLoop, h1, h2, h3]
          · simp only [h1, h2, h3] at hx
            simp only [bulletEnemyLoop, h1, h2, h3, hx, Bool.false_eq_true,
              if_false]
    rw [List.cons_append, hstep, List.cons_append, hstep]
    exact ih fun y hy => hmiss y (by simp [hy])

/-- A concrete bullet-phase scenario: a player with live score 0, one enemy
with health 3 and point value 10, and three damage-1 bullets all overlapping
the enemy. -/
def c5World : World :=
  { entities := [0, 1, 2, 3, 4],
    components :=
      [(0, [("Player", .player ⟨0, 400, true, 0, 0, false, false, false, 0, some 0⟩),
            ("Position", .position ⟨100, 500, 0⟩),
            ("Size", .size ⟨50, 50⟩)]),
       (1, [("Enemy", .enemy ⟨"basic", 10⟩),
            ("Position", .position ⟨200, 100, 0⟩),
            ("Size", .size ⟨40, 40⟩),
            ("Collision", .collision ⟨true, 0, "enemy"⟩),
            ("Health", .health ⟨3, 3⟩)]),
       (2, [("Bullet", .bullet ⟨1, false⟩),
            ("Position", .position ⟨210, 110, 0⟩),
            ("Size", .size ⟨4, 10⟩),
            ("Collision", .collision ⟨true, 1, "bullet"⟩)]),
       (3, [("Bullet", .bullet ⟨1, false⟩),
            ("Position", .position ⟨220, 110, 0⟩),
            ("Size", .size ⟨4, 10⟩),
            ("Collision", .collision ⟨true, 1, "bullet"⟩)]),
       (4, [("Bullet", .bullet ⟨1, false⟩),
            ("Position", .position ⟨230, 110, 0⟩),
            ("Size", .size ⟨4, 10⟩),
            ("Collision", .collision ⟨true, 1, "bullet"⟩)])],
    systems := ["PowerupSystem"], entityComponentCache := [],
    cacheValid := false, nextId := 5 }

/-- The same scenario with only the first two of the three bullets. -/
def c5World2 : World :=
  { entities := [0, 1, 2, 3],
    components :=
      [(0, [("Player", .player ⟨0, 400, true, 0, 0, false, false, false, 0, some 0⟩),
            ("Position", .position ⟨100, 500, 0⟩),
            ("Size", .size ⟨50, 50⟩)]),
       (1, [("Enemy", .enemy ⟨"basic", 10⟩),
            ("Position", .position ⟨200, 100, 0⟩),
            ("Size", .size ⟨40, 40⟩),
            ("Collision", .collision ⟨true, 0, "enemy"⟩),
            ("Health", .health ⟨3, 3⟩)]),
       (2, [("Bullet", .bullet ⟨1, false⟩),
            ("Position", .position ⟨210, 110, 0⟩),
            ("Size", .size ⟨4, 10⟩),
            ("Collision", .collision ⟨true, 1, "bullet"⟩)]),
       (3, [("Bullet", .bullet ⟨1, false⟩),
            ("Position", .position ⟨220, 110, 0⟩),
            ("Size", .size ⟨4, 10⟩),
            ("Collision", .collision ⟨true, 1, "bullet"⟩)])],
    systems := ["PowerupSystem"], entityComponentCache := [],
    cacheValid := false, nextId := 4 }

/-- C5: in the bullet phase the first enemy of the enemy list that has
Position, Size and Health and strictly overlaps the bullet gets the bullet's
damage subtracted from its health, the bullet's hit flag is set, no further
enemy is examined (the result does not depend on the rest of the list), every
other entity's health is untouched, and exactly when the resulting health
is at most 0 the enemy's point value is added (by the none-absorbing live
`score` write) to the first player of the player query - other players'
scores never change. Concretely, three distinct damage-1 bullets against one
health-3 enemy leave health 0, every bullet marked hit, and the first player's
live score raised by the point value 10 exactly once; with only two such
bullets health is 1 and the score is unchanged. -/
theorem c5_bullet_first_hit_and_scoring :
    (∀ (bulletE : ℕ) (b : BulletData) (bPos : PositionData) (bSize : SizeData)
      (es₁ es₂ : List ℕ) (e : ℕ) (w : World),
      w.cacheValid = false →
      (∀ x ∈ es₁, bulletEnemyHit bPos bSize w x = false) →
      ∀ (ePos : PositionData) (eSize : SizeData) (eh : HealthData),
      getPosition e w = some ePos → getSize e w = some eSize →
      getHealth e w = some eh →
      isColliding bPos bSize ePos eSize = true →
      getBullet bulletE w = some b →
      ∀ (ed : EnemyData), getEnemy e w = some ed →
      ∀ (p : ℕ) (prest : List ℕ), naiveScan ["Player"] w = p :: prest →
      ∀ (pc : PlayerData), getPlayer p w = some pc →
      (∀ es₂', bulletEnemyLoop bulletE (some b) bPos bSize (es₁ ++ e :: es₂') w =
        bulletEnemyLoop bulletE (some b) bPos bSize (es₁ ++ e :: es₂) w) ∧
      ∃ w', bulletEnemyLoop bulletE (some b) bPos bSize (es₁ ++ e :: es₂) w =
          .ok (w', some { b with hit := true }) ∧
        getHealth e w' =
          some { eh with currentHealth := eh.currentHealth - b.damage } ∧
        getBullet bulletE w' = some { b with hit := true } ∧
        (∀ x, x ≠ e → getHealth x w' = getHealth x w) ∧
        (eh.currentHealth - b.damage ≤ 0 →
          getPlayer p w' =
            some { pc with score := pc.score.map (· + ed.pointValue) }) ∧
        (¬(eh.currentHealth - b.damage ≤ 0) →
          ∀ x, getPlayer x w' = getPlayer x w)) ∧
    (checkBulletCollisions c5World).map (fun wf =>
        (getHealth 1 wf, getPlayer 0 wf, getBullet 2 wf, getBullet 3 wf,
          getBullet 4 wf)) =
      .ok (some ⟨0, 3⟩,
        some ⟨0, 400, true, 0, 0, false, false, false, 0, some 10⟩,
        some ⟨1, true⟩, some ⟨1, true⟩, some ⟨1, true⟩) ∧
    (checkBulletCollisions c5World2).map (fun wf =>
        (getHealth 1 wf, getPlayer 0 wf)) =
      .ok (some ⟨1, 3⟩,
        some ⟨0, 400, true, 0, 0, false, false, false, 0, some 0⟩) := by
  refine ⟨?_, ?_, ?_⟩
  · intro bulletE b bPos bSize es₁ es₂ e w hcv hmiss ePos eSize eh hp hs hh
      hcol hbul ed hed p prest hplayers pc hpc
    refine ⟨fun es₂' => bulletEnemyLoop_stops_after_hit bulletE (some b) bPos
      bSize es₁ e w hmiss ePos eSize eh hp hs hh hcol es₂' es₂, ?_⟩
    exact bulletEnemyLoop_first_hit bulletE b bPos bSize es₁ es₂ e w hcv hmiss
      ePos eSize eh hp hs hh hcol hbul ed hed p prest hplayers pc hpc
  · with_unfolding_all rfl
  · with_unfolding_all rfl

theorem c5_bullet_first_hit_and_scoring_witness :
    ∃ w', bulletEnemyLoop 2 (some ⟨1, false⟩) ⟨210, 110, 0⟩ ⟨4, 10⟩ [1]
        c5World = .ok (w', some ⟨1, true⟩) ∧
      getHealth 1 w' = some ⟨2, 3⟩ := by
  obtain ⟨w', h1, h2, -⟩ :=
    (c5_bullet_first_hit_and_scoring.1 2 ⟨1, false⟩ ⟨210, 110, 0⟩ ⟨4, 10⟩
      [] [] 1 c5World rfl (by simp) ⟨200, 100, 0⟩ ⟨40, 40⟩ ⟨3, 3⟩ rfl rfl rfl
      (by with_unfolding_all decide) rfl ⟨"basic", 10⟩ rfl 0 []
      (by with_unfolding_all rfl) ⟨0, 400, true, 0, 0, false, false, false, 0,
        some 0⟩ rfl).2
  exact ⟨w', h1, by rw [h2]; norm_num⟩

end RFAG

namespace RFAG

/-- The x coordinate the clone loop gives clone `i`: the first clone keeps the
original's x; later clones are spread right of the original by multiples of
`cloneWidth + 2 * originalWidth` (the clone's width equals the original's,
both written through `cSize`) and clamped to the zone's horizontal extent. -/
def cloneX (mPos : PositionData) (mSize : SizeData) (cPos : PositionData)
    (cSize : SizeData) (i : ℕ) : ℚ :=
  if i ≠ 0 then
    let spacing := 2 * cSize.width
    let startX := cPos.x + spacing
    let newX := startX + (i : ℚ) * (cSize.width + spacing)
    if newX > mPos.x + mSize.width then mPos.x + mSize.width
    else if newX < mPos.x then mPos.x
    else newX
  else cPos.x

/-- The y coordinate every clone gets: just below the zone on a bottom exit,
else above the zone by the zone's height plus the clone's height plus 2. -/
def cloneExitY (mPos : PositionData) (mSize : SizeData) (cSize : SizeData)
    (fromBottom : Bool) : ℚ :=
  if fromBottom then mPos.y + mSize.height + 2
  else mPos.y - mSize.height - cSize.height - 2

theorem cloneStep_spec (mPos : PositionData) (mSize : SizeData)
    (cPos : PositionData) (cSize : SizeData) (fromBottom : Bool) (nv : ℕ)
    (cE : ℕ) (w : World) (i : ℕ) (cm : ComponentMap)
    (hcm : alistGet w.components cE = some cm)
    (hpos : alistGet cm "Position" = some (.position cPos))
    (hsize : alistGet cm "Size" = some (.size cSize)) :
    cloneStep mPos mSize cPos cSize fromBottom nv cE w i =
      { w with
        entities := w.entities ++ [w.nextId],
        components := alistSet (alistSet w.components w.nextId cm) w.nextId
          (alistSet cm "Position" (.position
            ⟨cloneX mPos mSize cPos cSize i,
             cloneExitY mPos mSize cSize fromBottom, cPos.rotation⟩)),
        cacheValid := false,
        nextId := w.nextId + 1 } := by
  have hgp : getPosition w.nextId
      { w with
        entities := w.entities ++ [w.nextId],
        components := alistSet w.components w.nextId cm,
        cacheValid := false,
        nextId := w.nextId + 1 } = some cPos := by
    unfold getPosition getComponent
    simp only [alistGet_alistSet_self, hpos]
  have hgs : getSize w.nextId
      { w with
        entities := w.entities ++ [w.nextId],
        components := alistSet w.components w.nextId cm,
        cacheValid := false,
        nextId := w.nextId + 1 } = some cSize := by
    unfold getSize getComponent
    simp only [alistGet_alistSet_self, hsize]
  have hupd : updateComponent w.nextId "Position"
      (.position ⟨cloneX mPos mSize cPos cSize i,
        cloneExitY mPos mSize cSize fromBottom, cPos.rotation⟩)
      { w with
        entities := w.entities ++ [w.nextId],
        components := alistSet w.components w.nextId cm,
        cacheValid := false,
        nextId := w.nextId + 1 } =
      { w with
        entities := w.entities ++ [w.nextId],
        components := alistSet (alistSet w.components w.nextId cm) w.nextId
          (alistSet cm "Position" (.position
            ⟨cloneX mPos mSize cPos cSize i,
             cloneExitY mPos mSize cSize fromBottom, cPos.rotation⟩)),
        cacheValid := false,
        nextId := w.nextId + 1 } := by
    unfold updateComponent
    simp only [alistGet_alistSet_self, alistHas_of_alistGet hpos, if_true]
  unfold cloneStep cloneEntity
  simp only [hcm, Option.getD_some, hgp, hgs]
  rw [← hupd]
  unfold cloneX cloneExitY
  by_cases hi : i ≠ 0
  · simp only [if_pos hi]
    by_cases h1 : cPos.x + 2 * cSize.width +
        (i : ℚ) * (cSize.width + 2 * cSize.width) > mPos.x + mSize.width
    · simp only [if_pos h1]
    · simp only [if_neg h1]
      by_cases h2 : cPos.x + 2 * cSize.width +
          (i : ℚ) * (cSize.width + 2 * cSize.width) < mPos.x
      · simp only [if_pos h2]
      · simp only [if_neg h2]
  · simp only [if_neg hi]

theorem cloneLoop_spec (mPos : PositionData) (mSize : SizeData)
    (cPos : PositionData) (cSize : SizeData) (fromBottom : Bool) (nv : ℕ)
    (cE : ℕ) (cm : ComponentMap) (n : ℕ) (w : World)
    (hcm : alistGet w.components cE = some cm)
    (hpos : alistGet cm "Position" = some (.position cPos))
    (hsize : alistGet cm "Size" = some (.size cSize))
    (hkeys : ∀ k, w.nextId ≤ k → alistGet w.components k = none) :
    ((List.range n).foldl
        (cloneStep mPos mSize cPos cSize fromBottom nv cE) w).entities =
      w.entities ++ (List.range n).map (fun k => w.nextId + k) ∧
    ((List.range n).foldl
        (cloneStep mPos mSize cPos cSize fromBottom nv cE) w).nextId =
      w.nextId + n ∧
    (∀ k, k < n → alistGet ((List.range n).foldl
        (cloneStep mPos mSize cPos cSize fromBottom nv cE) w).components
        (w.nextId + k) =
      some (alistSet cm "Position" (.position
        ⟨cloneX mPos mSize cPos cSize k,
         cloneExitY mPos mSize cSize fromBottom, cPos.rotation⟩))) ∧
    (∀ e, e < w.nextId → alistGet ((List.range n).foldl
        (cloneStep mPos mSize cPos cSize fromBottom nv cE) w).components e =
      alistGet w.components e) ∧
    (∀ k, w.nextId + n ≤ k → alistGet ((List.range n).foldl
        (cloneStep mPos mSize cPos cSize fromBottom nv cE) w).components k =
      none) := by
  have hcE : cE < w.nextId := by
    by_contra hge
    push_neg at hge
    rw [hkeys cE hge] at hcm
    exact Option.noConfusion hcm
  induction n with
  | zero =>
    refine ⟨by simp, by simp, ?_, fun e _ => rfl,
      fun k hk => hkeys k (by omega)⟩
    intro k hk
    exact absurd hk (by omega)
  | succ n ih =>
    obtain ⟨ih1, ih2, ih3, ih4, ih5⟩ := ih
    have hcmN : alistGet ((List.range n).foldl
        (cloneStep mPos mSize cPos cSize fromBottom nv cE) w).components cE =
        some cm := by
      rw [ih4 cE hcE]
      exact hcm
    have hstep := cloneStep_spec mPos mSize cPos cSize fromBottom nv cE
      ((List.range n).foldl (cloneStep mPos mSize cPos cSize fromBottom nv cE) w)
      n cm hcmN hpos hsize
    rw [List.range_succ, List.foldl_append, List.foldl_cons, List.foldl_nil,
      hstep]
    refine ⟨?_, ?_, ?_, ?_, ?_⟩
    · show ((List.range n).foldl
          (cloneStep mPos mSize cPos cSize fromBottom nv cE) w).entities ++
          [((List.range n).foldl
            (cloneStep mPos mSize cPos cSize fromBottom nv cE) w).nextId] = _
      rw [ih1, ih2, List.map_append, List.append_assoc]
      rfl
    · show ((List.range n).foldl
          (cloneStep mPos mSize cPos cSize fromBottom nv cE) w).nextId + 1 = _
      rw [ih2]
      omega
    · intro k hk
      show alistGet (alistSet (alistSet _ _ cm) _ _) (w.nextId + k) = _
      by_cases hkn : k = n
      · subst hkn
        rw [← ih2, alistGet_alistSet_self]
      · have hne : w.nextId + k ≠ ((List.range n).foldl
            (cloneStep mPos mSize cPos cSize fromBottom nv cE) w).nextId := by
          rw [ih2]
          omega
        rw [alistGet_alistSet_ne _ _ hne, alistGet_alistSet_ne _ _ hne]
        exact ih3 k (by omega)
    · intro e he
      show alistGet (alistSet (alistSet _ _ cm) _ _) e = _
      have hne : e ≠ ((List.range n).foldl
          (cloneStep mPos mSize cPos cSize fromBottom nv cE) w).nextId := by
        rw [ih2]
        omega
      rw [alistGet_alistSet_ne _ _ hne, alistGet_alistSet_ne _ _ hne]
      exact ih4 e he
    · intro k hk
      show alistGet (alistSet (alistSet _ _ cm) _ _) k = _
      have hne : k ≠ ((List.range n).foldl
          (cloneStep mPos mSize cPos cSize fromBottom nv cE) w).nextId := by
        rw [ih2]
        omega
      rw [alistGet_alistSet_ne _ _ hne, alistGet_alistSet_ne _ _ hne]
      exact ih5 k (by omega)

end RFAG

namespace RFAG

/-- A multiplier zone at (100,100) sized 200x50 (value 2) and one collidable
at (90,120) sized 30x30 overlapping it, entered from the bottom; the
collidable's x lies left of the zone's left edge. -/
def c2World : World :=
  { entities := [0, 1],
    components :=
      [(0, [("Multiplier", .multiplier ⟨2⟩),
            ("Position", .position ⟨100, 100, 0⟩),
            ("Size", .size ⟨200, 50⟩)]),
       (1, [("Collision", .collision ⟨true, 0, "enemy"⟩),
            ("Position", .position ⟨90, 120, 0⟩),
            ("Size", .size ⟨30, 30⟩)])],
    systems := [], entityComponentCache := [],
    cacheValid := false, nextId := 2 }

/-- Counterexample to C2: the multiplier phase clamps only the clones with
index at least 1; the first clone keeps the original's x coordinate, which
here (90) lies outside the zone's horizontal extent [100, 300] - the claim
says all clones are clamped to the zone's horizontal extent. -/
theorem c2_counterexample_first_clone_not_clamped :
    isColliding ⟨100, 100, 0⟩ ⟨200, 50⟩ ⟨90, 120, 0⟩ ⟨30, 30⟩ = true ∧
    (checkCollisionsWithMultiplier c2World).entities = [0, 2, 3] ∧
    getPosition 2 (checkCollisionsWithMultiplier c2World) =
      some ⟨90, 152, 0⟩ ∧
    (90 : ℚ) < 100 := by
  refine ⟨by with_unfolding_all decide, ?_, ?_, by norm_num⟩
  · with_unfolding_all rfl
  · with_unfolding_all rfl

/-- C2 as amended: for a multiplier zone, the clone loop over an original
with component map `cm` holding Position `cPos` and Size `cSize` appends
exactly `n` fresh entities; clone `k` carries a full copy of `cm` in which
only Position is replaced, by `cloneX` horizontally (the first clone keeps
the original's x, unclamped; later clones are spread and clamped into the
zone's horizontal extent) and `cloneExitY` vertically; all other entities
keep their component maps. The inner loop removes the first (and only the
first) overlapping collidable after cloning and stops - its result does not
mention the remaining collidables - so each zone processes at most one
target per pass. Every clone's exit y lies outside the zone's vertical span
on the side the original entered from. Concretely, the 30x30 collidable
overlapping the value-2 zone of `c2World` from the bottom is destroyed and
replaced by exactly 2 full copies below the zone at y = 152, the first at
the original's x = 90, the second clamped-free at x = 240. -/
theorem c2_amended_multiplier_cloning :
    (∀ (mPos : PositionData) (mSize : SizeData) (cPos : PositionData)
      (cSize : SizeData) (fromBottom : Bool) (nv : ℕ) (cE : ℕ)
      (cm : ComponentMap) (n : ℕ) (w : World),
      alistGet w.components cE = some cm →
      alistGet cm "Position" = some (.position cPos) →
      alistGet cm "Size" = some (.size cSize) →
      (∀ k, w.nextId ≤ k → alistGet w.components k = none) →
      ((List.range n).foldl
          (cloneStep mPos mSize cPos cSize fromBottom nv cE) w).entities =
        w.entities ++ (List.range n).map (fun k => w.nextId + k) ∧
      ((List.range n).foldl
          (cloneStep mPos mSize cPos cSize fromBottom nv cE) w).nextId =
        w.nextId + n ∧
      (∀ k, k < n → alistGet ((List.range n).foldl
          (cloneStep mPos mSize cPos cSize fromBottom nv cE) w).components
          (w.nextId + k) =
        some (alistSet cm "Position" (.position
          ⟨cloneX mPos mSize cPos cSize k,
           cloneExitY mPos mSize cSize fromBottom, cPos.rotation⟩))) ∧
      (∀ e, e < w.nextId → alistGet ((List.range n).foldl
          (cloneStep mPos mSize cPos cSize fromBottom nv cE) w).components e =
        alistGet w.components e) ∧
      (∀ k, w.nextId + n ≤ k → alistGet ((List.range n).foldl
          (cloneStep mPos mSize cPos cSize fromBottom nv cE) w).components k =
        none)) ∧
    (∀ (mE : ℕ) (md : MultiplierData) (mPos : PositionData)
      (mSize : SizeData) (cE : ℕ) (cPos : PositionData) (cSize : SizeData)
      (es₂ : List ℕ) (w : World),
      cE ≠ mE → getPosition cE w = some cPos → getSize cE w = some cSize →
      isColliding mPos mSize cPos cSize = true →
      multiplierInnerLoop mE md mPos mSize (cE :: es₂) w =
        removeEntity cE ((List.range md.value).foldl
          (cloneStep mPos mSize cPos cSize
            (decide (cPos.y + cSize.height ≤ mPos.y + mSize.height))
            md.value cE) w)) ∧
    (∀ (mPos : PositionData) (mSize : SizeData) (cSize : SizeData)
      (fromBottom : Bool), 0 ≤ mSize.height →
      if fromBottom then
        mPos.y + mSize.height < cloneExitY mPos mSize cSize fromBottom
      else cloneExitY mPos mSize cSize fromBottom + cSize.height < mPos.y) ∧
    (checkCollisionsWithMultiplier c2World).entities = [0, 2, 3] ∧
    alistGet (checkCollisionsWithMultiplier c2World).components 2 =
      some [("Collision", .collision ⟨true, 0, "enemy"⟩),
            ("Position", .position ⟨90, 152, 0⟩),
            ("Size", .size ⟨30, 30⟩)] ∧
    alistGet (checkCollisionsWithMultiplier c2World).components 3 =
      some [("Collision", .collision ⟨true, 0, "enemy"⟩),
            ("Position", .position ⟨240, 152, 0⟩),
            ("Size", .size ⟨30, 30⟩)] ∧
    alistGet (checkCollisionsWithMultiplier c2World).components 1 = none := by
  refine ⟨?_, ?_, ?_, ?_, ?_, ?_, ?_⟩
  · intro mPos mSize cPos cSize fromBottom nv cE cm n w hcm hpos hsize hkeys
    exact cloneLoop_spec mPos mSize cPos cSize fromBottom nv cE cm n w
      hcm hpos hsize hkeys
  · intro mE md mPos mSize cE cPos cSize es₂ w hne hp hs hcol
    simp only [multiplierInnerLoop, if_neg hne, hp, hs, hcol, if_true]
  · intro mPos mSize cSize fromBottom hh
    unfold cloneExitY
    cases fromBottom
    · simp only [Bool.false_eq_true, if_false]
      linarith
    · simp only [if_true]
      linarith
  · with_unfolding_all rfl
  · with_unfolding_all rfl
  · with_unfolding_all rfl
  · with_unfolding_all rfl

theorem c2_amended_multiplier_cloning_witness :
    ((List.range 2).foldl
        (cloneStep ⟨100, 100, 0⟩ ⟨200, 50⟩ ⟨90, 120, 0⟩ ⟨30, 30⟩ true 2 1)
        c2World).entities = [0, 1, 2, 3] ∧
    alistGet ((List.range 2).foldl
        (cloneStep ⟨100, 100, 0⟩ ⟨200, 50⟩ ⟨90, 120, 0⟩ ⟨30, 30⟩ true 2 1)
        c2World).components (c2World.nextId + 0) =
      some [("Collision", .collision ⟨true, 0, "enemy"⟩),
            ("Position", .position ⟨90, 152, 0⟩),
            ("Size", .size ⟨30, 30⟩)] := by
  obtain ⟨h1, h2, h3, h4, h5⟩ :=
    c2_amended_multiplier_cloning.1 ⟨100, 100, 0⟩ ⟨200, 50⟩ ⟨90, 120, 0⟩
      ⟨30, 30⟩ true 2 1
      [("Collision", .collision ⟨true, 0, "enemy"⟩),
       ("Position", .position ⟨90, 120, 0⟩),
       ("Size", .size ⟨30, 30⟩)] 2 c2World rfl rfl rfl
      (by
        intro k hk
        have hk2 : 2 ≤ k := hk
        show alistGet c2World.components k = none
        simp only [c2World, alistGet]
        rw [if_neg (by omega), if_neg (by omega)])
  refine ⟨?_, ?_⟩
  · rw [h1]
    rfl
  · rw [h3 0 (by omega)]
    with_unfolding_all decide

end RFAG
